import Mathlib

/-!
# ctester: registry, selection, run loop and check macros

A shallow embedding of `ctester.h` and `ctester.c`.

* A C string is the list of the characters that precede its terminating NUL; a
  character stands for a byte (the names of the source are identifiers).
* The singly linked list that hangs off `ctester_test_root` is the Lean list of
  its descriptors in link order; the `next` field of a descriptor is its
  successor in that list, and a pointer to a descriptor of the list is its
  position.
* The fields that `main` writes (`state`, `number_of_tests`) are kept, while
  `main` runs, as maps from the position of a descriptor to the value of the
  field.
* A test body is a function pointer; `call` gives the function behind it, which
  maps the program state outside `ctester_state` (a type `W`) and the
  `ctester_state` it receives to the two after the body returned. A body
  returns and does not write to the registry.
* The `unsigned` counters of `main` are taken modulo 2^32. Its `int` counters
  count descriptors of the registry and are integers.
-/

namespace Ctester

/-! ## C strings -/

/-- The function `strcmp` of the C library on the characters of two strings: the
difference of the first two characters that differ (the end of a string counts as
the NUL character, and a NUL inside the list ends the string as in C). -/
def strcmp : List Char → List Char → Int
  | [], [] => 0
  | [], b :: _ => 0 - (b.toNat : Int)
  | a :: _, [] => (a.toNat : Int) - 0
  | a :: as, b :: bs =>
      if a ≠ b then (a.toNat : Int) - (b.toNat : Int)
      else if a.toNat = 0 then 0
      else strcmp as bs

/-- The function `strncmp` of the C library: as `strcmp`, over the first `n`
characters at most. -/
def strncmp : List Char → List Char → Nat → Int
  | _, _, 0 => 0
  | [], [], _ + 1 => 0
  | [], b :: _, _ + 1 => 0 - (b.toNat : Int)
  | a :: _, [], _ + 1 => (a.toNat : Int) - 0
  | a :: as, b :: bs, n + 1 =>
      if a ≠ b then (a.toNat : Int) - (b.toNat : Int)
      else if a.toNat = 0 then 0
      else strncmp as bs n

/-- A list of characters is the content of a C string when it holds no NUL. -/
def IsCStr (s : List Char) : Prop := ∀ c ∈ s, c.toNat ≠ 0

instance (s : List Char) : Decidable (IsCStr s) := by
  unfold IsCStr; infer_instance

/-! ## The registry (`ctester.h`) -/

/-- The structure `ctester_test_case_state_t`: the state passed to a test. -/
structure ctester_test_case_state_t where
  /-- The line number where a failure occurred. -/
  failed : Int
  /-- The number of warnings issued from the test. -/
  warning : Int
deriving DecidableEq, Repr

/-- The structure `ctester_test_case_list_t`, without its `next` field (the
successor in the list). `test_body` is the function pointer. -/
structure ctester_test_case_list_t where
  full_test_name : List Char
  test_case_name : List Char
  test_name : List Char
  test_body : Nat
  state : Int
  number_of_tests : Int
deriving DecidableEq, Repr

/-- The descriptor that `TEST(TEST_CASE_NAME, TEST_NAME)` defines:
`ctester_test_case_info_...`, with its initializer. -/
def TEST (TEST_CASE_NAME TEST_NAME : List Char) (test_body : Nat) :
    ctester_test_case_list_t where
  full_test_name := TEST_CASE_NAME ++ '.' :: TEST_NAME
  test_case_name := TEST_CASE_NAME
  test_name := TEST_NAME
  test_body := test_body
  state := 0
  number_of_tests := 0

/-- The constructor `_register__...` that `TEST` emits, run on the list that
hangs off `iter->next` (at first `iter` is `&iter_root`, whose `next` is
`ctester_test_root`): the loop steps over the descriptors whose full name is
below the one of `test` and `test` is linked in front of the first other one.
The result is the list that hangs off the same `next` field afterwards. -/
def _register (test : ctester_test_case_list_t) :
    List ctester_test_case_list_t → List ctester_test_case_list_t
  | [] => [test]
  | next :: rest =>
      if strcmp next.full_test_name test.full_test_name < 0 then
        next :: _register test rest
      else test :: next :: rest

/-- The list at `ctester_test_root` once the constructors of `tests` have run,
in this order, on the empty registry. -/
def ctester_test_root (tests : List ctester_test_case_list_t) :
    List ctester_test_case_list_t :=
  tests.foldl (fun root test => _register test root) []

/-- The function `print_list`: the lines written to the standard output. -/
def print_list : List ctester_test_case_list_t → List (List Char)
  | [] => []
  | test :: next => test.full_test_name :: print_list next

/-! ## The runner (`ctester.c`) -/

def _CTESTER_STATE_DEFAULT : Int := 0
def _CTESTER_STATE_SCHEDULED : Int := 1
def _CTESTER_STATE_FAILED : Int := 2
def _CTESTER_STATE_SUCCEEDED : Int := 3

/-- What `main` writes to the standard output, one constructor for each place
that prints (texts, colours and elapsed times are left out). -/
inductive Output where
  /-- The text of `print_help`. -/
  | help
  /-- A line of `print_list`. -/
  | line (full_test_name : List Char)
  /-- The advice that a test is disabled. -/
  | disabled (full_test_name : List Char)
  /-- The line "Running n tests from m test cases". -/
  | running (total_test_count total_test_case_count : Int)
  /-- The line "n tests from" a test case, before its first test. -/
  | case_start (number_of_tests : Int) (test_case_name : List Char)
  /-- The line "n tests from" a test case with its time, after its last test. -/
  | case_end (number_of_tests : Int) (test_case_name : List Char)
  /-- The RUN line of a test. -/
  | run (full_test_name : List Char)
  /-- The OK line of a test; `warned` is the colour, chosen by `state.warning`. -/
  | ok (full_test_name : List Char) (warned : Bool)
  /-- The FAILED line of a test. -/
  | failed (full_test_name : List Char)
  /-- The line "n tests from m test cases ran". -/
  | ran (total_test_count total_test_case_count : Int)
  /-- The PASSED line of the summary. -/
  | passed (passed_tests : Nat)
  /-- The line with the number of disabled tests. -/
  | disabled_total (total_disabled_tests : Int)
  /-- The FAILED line of the summary. -/
  | failed_total (failed_tests : Nat)
  /-- The name of a failed test, listed in the summary. -/
  | failed_name (full_test_name : List Char)
  /-- The last line, "n FAILED TESTS". -/
  | failed_count (failed_tests : Nat)
deriving DecidableEq, Repr

/-- A value that `getopt(argc, argv, "hlt:")` returns before it returns -1:
`h`, `l`, `t` with `optarg` set, or the character for anything else. -/
inductive Opt where
  | h
  | l
  | t (optarg : List Char)
  | unknown
deriving DecidableEq, Repr

/-- How the option loop of `main` ends: with a call of `exit`, or with the
pattern for the tests to run. -/
inductive Options where
  | exit (code : Int) (out : List Output)
  | run (pattern : List Char)
deriving DecidableEq, Repr

/-- The option loop of `main` over the values that `getopt` returns. -/
def main_options (registry : List ctester_test_case_list_t) :
    List Opt → List Char → Options
  | [], pattern => Options.run pattern
  | Opt.h :: _, _ => Options.exit 0 [Output.help]
  | Opt.l :: _, _ => Options.exit 0 ((print_list registry).map Output.line)
  | Opt.t optarg :: rest, _ => main_options registry rest optarg
  | Opt.unknown :: _, _ => Options.exit 1 [Output.help]

/-- The `test_case_name` of the descriptor at a position. -/
def case_name_at (registry : List ctester_test_case_list_t) (position : Nat) : List Char :=
  match registry[position]? with
  | some test => test.test_case_name
  | none => []

/-- The variables of the selection loop of `main`. `state` and `number_of_tests`
are the fields of the descriptors by position, `test_case_start` is a position. -/
structure Selection where
  state : Nat → Int
  number_of_tests : Nat → Int
  test_case_start : Nat
  total_test_count : Int
  total_test_case_count : Int
  total_disabled_tests : Int
  out : List Output

/-- The variables before the selection loop: the fields as the registry holds
them, `test_case_start = test = ctester_test_root`, the counters at 0. -/
def Selection.init (registry : List ctester_test_case_list_t) : Selection where
  state := fun position =>
    match registry[position]? with
    | some test => test.state
    | none => 0
  number_of_tests := fun position =>
    match registry[position]? with
    | some test => test.number_of_tests
    | none => 0
  test_case_start := 0
  total_test_count := 0
  total_test_case_count := 0
  total_disabled_tests := 0
  out := []

/-- The string literal `"DISABLED_"` of the selection loop; `sizeof("DISABLED_") - 1`
is 9. -/
def DISABLED_ : List Char := "DISABLED_".toList

/-- One iteration of the selection loop of `main`, with `test` at a position of
the registry. `fnmatch` is the function of the C library (called with flags 0;
it returns 0 for a match). -/
def select_step (fnmatch : List Char → List Char → Int)
    (registry : List ctester_test_case_list_t) (pattern : List Char)
    (s : Selection) (position : Nat) : Selection :=
  match registry[position]? with
  | none => s
  | some test =>
    let test_case_start :=
      if strcmp test.test_case_name (case_name_at registry s.test_case_start) ≠ 0 then position
      else s.test_case_start
    if fnmatch pattern test.full_test_name = 0 then
      if strncmp test.test_name DISABLED_ 9 = 0
          ∧ strcmp test.full_test_name pattern ≠ 0 then
        { s with
          test_case_start := test_case_start
          total_disabled_tests := s.total_disabled_tests + 1
          out := s.out ++ [Output.disabled test.full_test_name] }
      else
        { s with
          test_case_start := test_case_start
          total_test_case_count :=
            if s.number_of_tests test_case_start = 0 then s.total_test_case_count + 1
            else s.total_test_case_count
          total_test_count := s.total_test_count + 1
          number_of_tests :=
            Function.update s.number_of_tests test_case_start
              (s.number_of_tests test_case_start + 1)
          state := Function.update s.state position _CTESTER_STATE_SCHEDULED }
    else { s with test_case_start := test_case_start }

/-- The selection loop of `main`: `test` runs over the list from
`ctester_test_root` to its end. -/
def select_loop (fnmatch : List Char → List Char → Int)
    (registry : List ctester_test_case_list_t) (pattern : List Char) : Selection :=
  (List.range registry.length).foldl (select_step fnmatch registry pattern)
    (Selection.init registry)

/-- The tests under which an iteration of the selection loop skips `test` as
disabled: `fnmatch` returns 0, `strncmp` finds the marker and `strcmp` finds the
full name different from the pattern. -/
def select_skips (fnmatch : List Char → List Char → Int) (pattern : List Char)
    (test : ctester_test_case_list_t) : Bool :=
  decide (fnmatch pattern test.full_test_name = 0
    ∧ (strncmp test.test_name DISABLED_ 9 = 0
      ∧ strcmp test.full_test_name pattern ≠ 0))

/-- The tests under which an iteration of the selection loop reaches
`test->state = _CTESTER_STATE_SCHEDULED`. -/
def select_schedules (fnmatch : List Char → List Char → Int) (pattern : List Char)
    (test : ctester_test_case_list_t) : Bool :=
  decide (fnmatch pattern test.full_test_name = 0
    ∧ ¬ (strncmp test.test_name DISABLED_ 9 = 0
      ∧ strcmp test.full_test_name pattern ≠ 0))

/-- A call of a test body by the run loop: the position of the test, the state
it was given and the state it left. -/
structure Invocation where
  position : Nat
  given : ctester_test_case_state_t
  left : ctester_test_case_state_t
deriving DecidableEq, Repr

/-- The variables of the run loop of `main`. `passed_tests` and `failed_tests`
are `unsigned`; `world` is the state of the program outside the runner;
`invoked` records the calls of test bodies, in order. -/
structure Run (W : Type) where
  state : Nat → Int
  test_case_start : Option Nat
  passed_tests : Nat
  failed_tests : Nat
  world : W
  out : List Output
  invoked : List Invocation

/-- The variables before the run loop. -/
def Run.init {W : Type} (sel : Selection) (world : W) : Run W where
  state := sel.state
  test_case_start := none
  passed_tests := 0
  failed_tests := 0
  world := world
  out := sel.out ++ [Output.running sel.total_test_count sel.total_test_case_count]
  invoked := []

/-- The lines of the run loop at the start of an iteration, when `test` opens a
new test case: the closing line of the case before and the opening line. -/
def case_lines (registry : List ctester_test_case_list_t) (number_of_tests : Nat → Int)
    (test_case_start : Option Nat) (position : Nat) (test : ctester_test_case_list_t) :
    List Output :=
  (match test_case_start with
    | some start =>
        if number_of_tests start ≠ 0 then
          [Output.case_end (number_of_tests start) (case_name_at registry start)]
        else []
    | none => [])
  ++ (if number_of_tests position ≠ 0 then
        [Output.case_start (number_of_tests position) test.test_case_name]
      else [])

/-- One iteration of the run loop of `main`, with `test` at a position of the
registry. `call` is the function behind a `test_body` pointer. -/
def run_step {W : Type} (call : Nat → W → ctester_test_case_state_t → W × ctester_test_case_state_t)
    (registry : List ctester_test_case_list_t) (number_of_tests : Nat → Int)
    (r : Run W) (position : Nat) : Run W :=
  match registry[position]? with
  | none => r
  | some test =>
    let opens : Bool :=
      match r.test_case_start with
      | none => true
      | some start => strcmp test.test_case_name (case_name_at registry start) ≠ 0
    let r1 : Run W :=
      if opens then
        { r with
          test_case_start := some position
          out := r.out ++ case_lines registry number_of_tests r.test_case_start position test }
      else r
    if r1.state position = _CTESTER_STATE_SCHEDULED then
      let state : ctester_test_case_state_t := ⟨0, 0⟩
      let after := call test.test_body r1.world state
      if after.2.failed = 0 then
        { r1 with
          state := Function.update r1.state position _CTESTER_STATE_SUCCEEDED
          passed_tests := (r1.passed_tests + 1) % 2 ^ 32
          world := after.1
          out := r1.out ++ [Output.run test.full_test_name,
            Output.ok test.full_test_name (after.2.warning != 0)]
          invoked := r1.invoked ++ [⟨position, state, after.2⟩] }
      else
        { r1 with
          state := Function.update r1.state position _CTESTER_STATE_FAILED
          failed_tests := (r1.failed_tests + 1) % 2 ^ 32
          world := after.1
          out := r1.out ++ [Output.run test.full_test_name, Output.failed test.full_test_name]
          invoked := r1.invoked ++ [⟨position, state, after.2⟩] }
    else r1

/-- The run loop of `main`: `test` runs over the list from `ctester_test_root`
to its end. -/
def run_loop {W : Type} (call : Nat → W → ctester_test_case_state_t → W × ctester_test_case_state_t)
    (registry : List ctester_test_case_list_t) (sel : Selection) (world : W) : Run W :=
  (List.range registry.length).foldl (run_step call registry sel.number_of_tests)
    (Run.init sel world)

/-- The last loop of `main`: the names of the tests in state failed. -/
def failed_names (state : Nat → Int) (registry : List ctester_test_case_list_t) :
    List Output :=
  (List.range registry.length).foldl (fun out position =>
    match registry[position]? with
    | some test =>
        if state position = _CTESTER_STATE_FAILED then out ++ [Output.failed_name test.full_test_name]
        else out
    | none => out) []

/-- What `main` leaves: the value it returns (or passes to `exit`), its output,
and after a run the variables of its two loops. -/
structure Exit (W : Type) where
  code : Int
  out : List Output
  selection : Option Selection
  run : Option (Run W)

/-- The part of `main` that follows the option loop: selection, run, summary
and return value. -/
def main_tests {W : Type} (fnmatch : List Char → List Char → Int)
    (call : Nat → W → ctester_test_case_state_t → W × ctester_test_case_state_t)
    (registry : List ctester_test_case_list_t) (pattern : List Char) (world : W) : Exit W :=
  let sel := select_loop fnmatch registry pattern
  let r := run_loop call registry sel world
  let out1 :=
    r.out
    ++ (match r.test_case_start with
        | some start =>
            if sel.number_of_tests start ≠ 0 then
              [Output.case_end (sel.number_of_tests start) (case_name_at registry start)]
            else []
        | none => [])
    ++ [Output.ran sel.total_test_count sel.total_test_case_count]
    ++ (if r.passed_tests ≠ 0 then [Output.passed r.passed_tests] else [])
    ++ (if sel.total_disabled_tests ≠ 0 then [Output.disabled_total sel.total_disabled_tests]
        else [])
  if r.failed_tests ≠ 0 then
    { code := 1
      out := out1 ++ [Output.failed_total r.failed_tests] ++ failed_names r.state registry
        ++ [Output.failed_count r.failed_tests]
      selection := some sel
      run := some r }
  else
    { code := 0, out := out1, selection := some sel, run := some r }

/-- The function `main`, on the registry that the constructors built, the values
`getopt` returns for the command line, and the state of the program. -/
def main {W : Type} (fnmatch : List Char → List Char → Int)
    (call : Nat → W → ctester_test_case_state_t → W × ctester_test_case_state_t)
    (registry : List ctester_test_case_list_t) (opts : List Opt) (world : W) : Exit W :=
  match main_options registry opts "*".toList with
  | Options.exit code out => { code := code, out := out, selection := none, run := none }
  | Options.run pattern => main_tests fnmatch call registry pattern world

/-! ## The check macros of a test body (`ctester.h`)

A test body is a sequence of statements, run in order. The operands of a check
are integers read from the program state; a check does not change the program
state. The checks on floating point numbers and on strings are not part of the
model. -/

/-- The comparison operator that `ASSERT_EQ` ... `EXPECT_GT` hand to
`_CTESTER_ASSERT2` and `_CTESTER_EXPECT2`. -/
inductive Cmp where
  | eq
  | ne
  | lt
  | le
  | ge
  | gt
deriving DecidableEq, Repr

/-- The value of `a_value CMP b_value` for two integers of one type. -/
def Cmp.holds : Cmp → Int → Int → Bool
  | Cmp.eq, a, b => decide (a = b)
  | Cmp.ne, a, b => decide (a ≠ b)
  | Cmp.lt, a, b => decide (a < b)
  | Cmp.le, a, b => decide (a ≤ b)
  | Cmp.ge, a, b => decide (a ≥ b)
  | Cmp.gt, a, b => decide (a > b)

/-- What the statement handed to `ASSERT_DEATH` ... `EXPECT_EXIT` does in the
child process: it is killed by a signal, it calls `exit`, or it returns. -/
inductive Behaviour where
  | crashes (signal : Nat)
  | exits (code : Int)
  | returns
deriving DecidableEq, Repr

/-- The status that `waitpid` stores for a child that ended: `WIFSIGNALED` with
`WTERMSIG`, or an exit with `WEXITSTATUS` (the low 8 bits of the exit code). -/
inductive Status where
  | signaled (signal : Nat)
  | exited (status : Int)
deriving DecidableEq, Repr

/-- The macro `_CTESTER_TEST_RUN_AS_CHILD`: the child runs the statement and
then calls `exit(exit_code_on_failure)`; the parent waits for it. The result is
the status of the child. -/
def _CTESTER_TEST_RUN_AS_CHILD (statement : Behaviour) (exit_code_on_failure : Int) : Status :=
  match statement with
  | Behaviour.crashes signal => Status.signaled signal
  | Behaviour.exits code => Status.exited (code % 256)
  | Behaviour.returns => Status.exited (exit_code_on_failure % 256)

/-- Whether control goes on to the next statement of the body or the body
returns. -/
inductive Flow where
  | next
  | ret
deriving DecidableEq, Repr

/-- What a statement of a body did when it ran: `ran` for a statement that is no
check, `held` for a check that was satisfied, `warned` for a failed `EXPECT_`
check, `added` for `ADD_FAILURE`, `aborted` for a failed `ASSERT_` check or
`FAIL`. -/
inductive Outcome where
  | ran
  | held
  | warned
  | added
  | aborted
deriving DecidableEq, Repr

/-- The state, the outcome and the flow after one statement. -/
structure Step where
  state : ctester_test_case_state_t
  outcome : Outcome
  flow : Flow
deriving DecidableEq, Repr

/-- The failure branch of the `EXPECT_` macros: `ctester_state->warning++`. -/
def expect_failed (s : ctester_test_case_state_t) : Step :=
  ⟨{ s with warning := s.warning + 1 }, Outcome.warned, Flow.next⟩

/-- The failure branch of the `ASSERT_` macros:
`ctester_state->failed = __LINE__; return`. -/
def assert_failed (line : Nat) (s : ctester_test_case_state_t) : Step :=
  ⟨{ s with failed := (line : Int) }, Outcome.aborted, Flow.ret⟩

/-- The macro `_CTESTER_EXPECT2`. -/
def _CTESTER_EXPECT2 (CMP : Cmp) (a_value b_value : Int) (s : ctester_test_case_state_t) : Step :=
  if !(CMP.holds a_value b_value) then expect_failed s else ⟨s, Outcome.held, Flow.next⟩

/-- The macro `_CTESTER_ASSERT2`. -/
def _CTESTER_ASSERT2 (CMP : Cmp) (a_value b_value : Int) (line : Nat)
    (s : ctester_test_case_state_t) : Step :=
  if !(CMP.holds a_value b_value) then assert_failed line s else ⟨s, Outcome.held, Flow.next⟩

/-- The macro `_CTESTER_EXPECT2P`; `PRED` returns an `int`. -/
def _CTESTER_EXPECT2P (PRED : Int → Int → Int) (a_value b_value : Int)
    (s : ctester_test_case_state_t) : Step :=
  if PRED a_value b_value = 0 then expect_failed s else ⟨s, Outcome.held, Flow.next⟩

/-- The macro `_CTESTER_ASSERT2P`. -/
def _CTESTER_ASSERT2P (PRED : Int → Int → Int) (a_value b_value : Int) (line : Nat)
    (s : ctester_test_case_state_t) : Step :=
  if PRED a_value b_value = 0 then assert_failed line s else ⟨s, Outcome.held, Flow.next⟩

/-- The macro `_CTESTER_EXPECT1P`. -/
def _CTESTER_EXPECT1P (PRED : Int → Int) (a_value : Int) (s : ctester_test_case_state_t) : Step :=
  if PRED a_value = 0 then expect_failed s else ⟨s, Outcome.held, Flow.next⟩

/-- The macro `_CTESTER_ASSERT1P`. -/
def _CTESTER_ASSERT1P (PRED : Int → Int) (a_value : Int) (line : Nat)
    (s : ctester_test_case_state_t) : Step :=
  if PRED a_value = 0 then assert_failed line s else ⟨s, Outcome.held, Flow.next⟩

/-- The conversion of the value of an integer type to `int` (32 bits, two's
complement), as an argument undergoes it when the parameter is an `int`: the
value modulo 2^32. -/
def to_int (x : Int) : Int := (x + 2 ^ 31) % 2 ^ 32 - 2 ^ 31

/-! ### The text of an argument

`_CTESTER_TEST_EXIT` writes its parameter `exit_code` into two expressions,
`!exit_code` and `WEXITSTATUS(status) != exit_code`, without parentheses. What
the compiler reads there is the text of the argument after `!`, respectively
after `WEXITSTATUS(status) !=`, so the argument is kept as its tokens, and the
two expressions are parsed as the grammar of C parses them. The expressions are
those of type `int` built from primary expressions with the operators below;
`/`, `%`, `<<` and `>>`, casts, assignments and the postfix operators are not
part of the model. -/

/-- A binary operator: `*`, `+`, `-`, `<`, `>`, `<=`, `>=`, `==`, `!=`, `&`,
`^`, `|`, `&&`, `||`. -/
inductive Op where
  | mul
  | add
  | sub
  | lt
  | gt
  | le
  | ge
  | eq
  | ne
  | band
  | bxor
  | bor
  | land
  | lor
deriving DecidableEq, Repr

/-- A token of an expression. `primary` is a primary expression, given by its
value: an integer constant, an identifier, or an expression in parentheses (as
`WEXITSTATUS(status)` expands to one). `bang` is `!`, `tilde` is `~`; `-` and
`+` in front of an operand are the tokens `op Op.sub` and `op Op.add`. -/
inductive Tok where
  | primary (value : Int)
  | bang
  | tilde
  | op (o : Op)
  | question
  | colon
deriving DecidableEq, Repr

/-- An expression as the compiler parses it. -/
inductive Expr where
  | primary (value : Int)
  | not (e : Expr)
  | compl (e : Expr)
  | minus (e : Expr)
  | plus (e : Expr)
  | bin (o : Op) (l r : Expr)
  | cond (c t f : Expr)
deriving DecidableEq, Repr

/-- The precedence of a binary operator in the grammar of C: multiplicative 10,
additive 9, relational 7, equality 6, `&` 5, `^` 4, `|` 3, `&&` 2, `||` 1. The
conditional operator is below them (0), the unary operators above (11). -/
def Op.prec : Op → Nat
  | Op.mul => 10
  | Op.add => 9
  | Op.sub => 9
  | Op.lt => 7
  | Op.gt => 7
  | Op.le => 7
  | Op.ge => 7
  | Op.eq => 6
  | Op.ne => 6
  | Op.band => 5
  | Op.bxor => 4
  | Op.bor => 3
  | Op.land => 2
  | Op.lor => 1

/-- The 32 bits of an `int`, as a number below 2^32. -/
def bits (x : Int) : Nat := (x % 2 ^ 32).toNat

/-- The `int` that a comparison or a logical operator gives: 1 or 0. -/
def truth (b : Bool) : Int := if b then 1 else 0

/-- The value of `a o b` for two `int`. -/
def Op.apply : Op → Int → Int → Int
  | Op.mul, a, b => a * b
  | Op.add, a, b => a + b
  | Op.sub, a, b => a - b
  | Op.lt, a, b => truth (decide (a < b))
  | Op.gt, a, b => truth (decide (a > b))
  | Op.le, a, b => truth (decide (a ≤ b))
  | Op.ge, a, b => truth (decide (a ≥ b))
  | Op.eq, a, b => truth (decide (a = b))
  | Op.ne, a, b => truth (decide (a ≠ b))
  | Op.band, a, b => to_int (Nat.land (bits a) (bits b))
  | Op.bxor, a, b => to_int (Nat.xor (bits a) (bits b))
  | Op.bor, a, b => to_int (Nat.lor (bits a) (bits b))
  | Op.land, a, b => truth (decide (a ≠ 0) && decide (b ≠ 0))
  | Op.lor, a, b => truth (decide (a ≠ 0) || decide (b ≠ 0))

/-- The value of an expression. -/
def Expr.eval : Expr → Int
  | Expr.primary v => v
  | Expr.not e => truth (decide (e.eval = 0))
  | Expr.compl e => -e.eval - 1
  | Expr.minus e => -e.eval
  | Expr.plus e => e.eval
  | Expr.bin o l r => o.apply l.eval r.eval
  | Expr.cond c t f => if c.eval ≠ 0 then t.eval else f.eval

/-- What the parser reads next: an operand that is followed by operators of
precedence `p` or more, or, after the operand `left`, these operators. -/
inductive Goal where
  | operand (p : Nat)
  | operators (p : Nat) (left : Expr)

/-- The parser of expressions, on the tokens that are left to read; it
returns the expression and the tokens after it. A unary operator takes the
operand that follows it and no binary operator (`!a * b` is `(!a) * b`); a
binary operator takes on its right the operators of higher precedence only, so
that operators of one precedence group to the left (`s != a | b` is
`(s != a) | b`); the third operand of `?:` is again a conditional expression.
`fuel` bounds the depth of the recursion. -/
def parse_from : Nat → Goal → List Tok → Option (Expr × List Tok)
  | 0, _, _ => none
  | fuel + 1, Goal.operand p, toks =>
      match toks with
      | Tok.primary v :: rest => parse_from fuel (Goal.operators p (Expr.primary v)) rest
      | Tok.bang :: rest =>
          match parse_from fuel (Goal.operand 11) rest with
          | some (e, rest2) => parse_from fuel (Goal.operators p (Expr.not e)) rest2
          | none => none
      | Tok.tilde :: rest =>
          match parse_from fuel (Goal.operand 11) rest with
          | some (e, rest2) => parse_from fuel (Goal.operators p (Expr.compl e)) rest2
          | none => none
      | Tok.op Op.sub :: rest =>
          match parse_from fuel (Goal.operand 11) rest with
          | some (e, rest2) => parse_from fuel (Goal.operators p (Expr.minus e)) rest2
          | none => none
      | Tok.op Op.add :: rest =>
          match parse_from fuel (Goal.operand 11) rest with
          | some (e, rest2) => parse_from fuel (Goal.operators p (Expr.plus e)) rest2
          | none => none
      | _ => none
  | fuel + 1, Goal.operators p left, toks =>
      match toks with
      | Tok.op o :: rest =>
          if p ≤ o.prec then
            match parse_from fuel (Goal.operand (o.prec + 1)) rest with
            | some (right, rest2) =>
                parse_from fuel (Goal.operators p (Expr.bin o left right)) rest2
            | none => none
          else some (left, toks)
      | Tok.question :: rest =>
          if p = 0 then
            match parse_from fuel (Goal.operand 0) rest with
            | some (t, Tok.colon :: rest2) =>
                match parse_from fuel (Goal.operand 0) rest2 with
                | some (f, rest3) => some (Expr.cond left t f, rest3)
                | none => none
            | _ => none
          else some (left, toks)
      | _ => some (left, toks)

/-- The expression that a text is, if it is one. The fuel is more than the
length of the text, which is as much as the parser needs (`parse_fuel`). -/
def parse (toks : List Tok) : Option Expr :=
  match parse_from (2 * toks.length + 2) (Goal.operand 0) toks with
  | some (e, []) => some e
  | _ => none

/-- The value of the expression that a text is. A text that is no expression
does not compile; 0 stands for its value. -/
def value (toks : List Tok) : Int :=
  match parse toks with
  | some e => e.eval
  | none => 0

/-- The macro `_CTESTER_TEST_DEATH`, with the step of its `on_failure`. -/
def _CTESTER_TEST_DEATH (statement : Behaviour) (on_failure : Step)
    (s : ctester_test_case_state_t) : Step :=
  match _CTESTER_TEST_RUN_AS_CHILD statement 0 with
  | Status.signaled _ => ⟨s, Outcome.held, Flow.next⟩
  | Status.exited _ => on_failure

/-- The macro `_CTESTER_TEST_EXIT`, with the step of its `on_failure`.
`exit_code` is the text of the argument. The fallback exit code of the child is
the value of the text `!exit_code`, and the check fails for an exit status when
the text `WEXITSTATUS(status) != exit_code` has a value other than 0. -/
def _CTESTER_TEST_EXIT (statement : Behaviour) (on_failure : Step) (exit_code : List Tok)
    (s : ctester_test_case_state_t) : Step :=
  match _CTESTER_TEST_RUN_AS_CHILD statement (value (Tok.bang :: exit_code)) with
  | Status.signaled _ => on_failure
  | Status.exited status =>
      if value (Tok.primary status :: Tok.op Op.ne :: exit_code) ≠ 0 then on_failure
      else ⟨s, Outcome.held, Flow.next⟩

/-- A statement of a test body: one of the check macros, `FAIL`, `ADD_FAILURE`,
or another statement (`other`), which changes the program state and leaves
`ctester_state` alone. The checks with a comparison stand for `ASSERT_EQ`,
`ASSERT_NE`, `ASSERT_LT`, `ASSERT_LE`, `ASSERT_GE`, `ASSERT_GT` and their
`EXPECT_` forms; those with a predicate for `ASSERT_PRED1`, `ASSERT_PRED2`,
`ASSERT_TRUE`, `ASSERT_FALSE` and their `EXPECT_` forms. `line` is `__LINE__`. -/
inductive Stmt (W : Type) where
  | ASSERT2 (CMP : Cmp) (a b : W → Int) (line : Nat)
  | EXPECT2 (CMP : Cmp) (a b : W → Int)
  | ASSERT2P (PRED : Int → Int → Int) (a b : W → Int) (line : Nat)
  | EXPECT2P (PRED : Int → Int → Int) (a b : W → Int)
  | ASSERT1P (PRED : Int → Int) (a : W → Int) (line : Nat)
  | EXPECT1P (PRED : Int → Int) (a : W → Int)
  | ASSERT_DEATH (statement : W → Behaviour) (line : Nat)
  | EXPECT_DEATH (statement : W → Behaviour)
  | ASSERT_EXIT (statement : W → Behaviour) (exit_code : List Tok) (line : Nat)
  | EXPECT_EXIT (statement : W → Behaviour) (exit_code : List Tok)
  | FAIL (line : Nat)
  | ADD_FAILURE
  | other (f : W → W)

/-- The statement `EXPECT_EQ(a, b)`. -/
def EXPECT_EQ {W : Type} (a b : W → Int) : Stmt W := Stmt.EXPECT2 Cmp.eq a b
/-- The statement `ASSERT_NE(a, b)`. -/
def ASSERT_NE {W : Type} (a b : W → Int) (line : Nat) : Stmt W := Stmt.ASSERT2 Cmp.ne a b line
/-- The statement `EXPECT_NE(a, b)`. -/
def EXPECT_NE {W : Type} (a b : W → Int) : Stmt W := Stmt.EXPECT2 Cmp.ne a b
/-- The statement `ASSERT_LT(a, b)`. -/
def ASSERT_LT {W : Type} (a b : W → Int) (line : Nat) : Stmt W := Stmt.ASSERT2 Cmp.lt a b line
/-- The statement `EXPECT_LT(a, b)`. -/
def EXPECT_LT {W : Type} (a b : W → Int) : Stmt W := Stmt.EXPECT2 Cmp.lt a b
/-- The statement `ASSERT_LE(a, b)`. -/
def ASSERT_LE {W : Type} (a b : W → Int) (line : Nat) : Stmt W := Stmt.ASSERT2 Cmp.le a b line
/-- The statement `EXPECT_LE(a, b)`. -/
def EXPECT_LE {W : Type} (a b : W → Int) : Stmt W := Stmt.EXPECT2 Cmp.le a b
/-- The statement `ASSERT_GE(a, b)`. -/
def ASSERT_GE {W : Type} (a b : W → Int) (line : Nat) : Stmt W := Stmt.ASSERT2 Cmp.ge a b line
/-- The statement `EXPECT_GE(a, b)`. -/
def EXPECT_GE {W : Type} (a b : W → Int) : Stmt W := Stmt.EXPECT2 Cmp.ge a b
/-- The statement `ASSERT_GT(a, b)`. -/
def ASSERT_GT {W : Type} (a b : W → Int) (line : Nat) : Stmt W := Stmt.ASSERT2 Cmp.gt a b line
/-- The statement `EXPECT_GT(a, b)`. -/
def EXPECT_GT {W : Type} (a b : W → Int) : Stmt W := Stmt.EXPECT2 Cmp.gt a b
/-- The statement `ASSERT_PRED1(pred, val1)`. -/
def ASSERT_PRED1 {W : Type} (pred : Int → Int) (val1 : W → Int) (line : Nat) : Stmt W :=
  Stmt.ASSERT1P pred val1 line
/-- The statement `EXPECT_PRED1(pred, val1)`. -/
def EXPECT_PRED1 {W : Type} (pred : Int → Int) (val1 : W → Int) : Stmt W :=
  Stmt.EXPECT1P pred val1
/-- The statement `ASSERT_PRED2(pred, val1, val2)`. -/
def ASSERT_PRED2 {W : Type} (pred : Int → Int → Int) (val1 val2 : W → Int) (line : Nat) :
    Stmt W :=
  Stmt.ASSERT2P pred val1 val2 line
/-- The statement `EXPECT_PRED2(pred, val1, val2)`. -/
def EXPECT_PRED2 {W : Type} (pred : Int → Int → Int) (val1 val2 : W → Int) : Stmt W :=
  Stmt.EXPECT2P pred val1 val2

/-- The function `_ctester_is_true`, on the value of its parameter: `!!x`. -/
def _ctester_is_true (x : Int) : Int := if x ≠ 0 then 1 else 0

/-- The function `_ctester_is_false`, on the value of its parameter: `!x`. -/
def _ctester_is_false (x : Int) : Int := if x = 0 then 1 else 0

/-- The statement `ASSERT_TRUE(a)`: `_CTESTER_ASSERT1P` with `_ctester_is_true`;
the call `PRED(a_value)` converts `a_value` to the `int` of the parameter. -/
def ASSERT_TRUE {W : Type} (a : W → Int) (line : Nat) : Stmt W :=
  Stmt.ASSERT1P (fun a_value => _ctester_is_true (to_int a_value)) a line
/-- The statement `EXPECT_TRUE(a)`. -/
def EXPECT_TRUE {W : Type} (a : W → Int) : Stmt W :=
  Stmt.EXPECT1P (fun a_value => _ctester_is_true (to_int a_value)) a
/-- The statement `ASSERT_FALSE(a)`: `_CTESTER_ASSERT1P` with `_ctester_is_false`. -/
def ASSERT_FALSE {W : Type} (a : W → Int) (line : Nat) : Stmt W :=
  Stmt.ASSERT1P (fun a_value => _ctester_is_false (to_int a_value)) a line
/-- The statement `EXPECT_FALSE(a)`. -/
def EXPECT_FALSE {W : Type} (a : W → Int) : Stmt W :=
  Stmt.EXPECT1P (fun a_value => _ctester_is_false (to_int a_value)) a

/-- One statement of a body, run on the program state `w` and on
`*ctester_state`, as its definition in `ctester.h` expands. `FAIL` and
`ADD_FAILURE` both end in `return`. -/
def Stmt.step {W : Type} (stmt : Stmt W) (w : W) (s : ctester_test_case_state_t) : W × Step :=
  match stmt with
  | Stmt.ASSERT2 CMP a b line => (w, _CTESTER_ASSERT2 CMP (a w) (b w) line s)
  | Stmt.EXPECT2 CMP a b => (w, _CTESTER_EXPECT2 CMP (a w) (b w) s)
  | Stmt.ASSERT2P PRED a b line => (w, _CTESTER_ASSERT2P PRED (a w) (b w) line s)
  | Stmt.EXPECT2P PRED a b => (w, _CTESTER_EXPECT2P PRED (a w) (b w) s)
  | Stmt.ASSERT1P PRED a line => (w, _CTESTER_ASSERT1P PRED (a w) line s)
  | Stmt.EXPECT1P PRED a => (w, _CTESTER_EXPECT1P PRED (a w) s)
  | Stmt.ASSERT_DEATH statement line =>
      (w, _CTESTER_TEST_DEATH (statement w) (assert_failed line s) s)
  | Stmt.EXPECT_DEATH statement => (w, _CTESTER_TEST_DEATH (statement w) (expect_failed s) s)
  | Stmt.ASSERT_EXIT statement exit_code line =>
      (w, _CTESTER_TEST_EXIT (statement w) (assert_failed line s) exit_code s)
  | Stmt.EXPECT_EXIT statement exit_code =>
      (w, _CTESTER_TEST_EXIT (statement w) (expect_failed s) exit_code s)
  | Stmt.FAIL line => (w, ⟨{ s with failed := (line : Int) }, Outcome.aborted, Flow.ret⟩)
  | Stmt.ADD_FAILURE => (w, ⟨{ s with warning := s.warning + 1 }, Outcome.added, Flow.ret⟩)
  | Stmt.other f => (f w, ⟨s, Outcome.ran, Flow.next⟩)

/-- What the run of a body leaves: the program state, `*ctester_state`, the
outcomes of the statements that ran, in order, and whether the body returned
from a statement (`ret`) or reached its end (`next`). -/
structure Exec (W : Type) where
  world : W
  state : ctester_test_case_state_t
  trace : List Outcome
  flow : Flow

/-- The run of a body: its statements in order, up to the first that returns. -/
def exec {W : Type} : List (Stmt W) → W → ctester_test_case_state_t → Exec W
  | [], w, s => ⟨w, s, [], Flow.next⟩
  | stmt :: rest, w, s =>
      match (stmt.step w s).2.flow with
      | Flow.ret => ⟨(stmt.step w s).1, (stmt.step w s).2.state, [(stmt.step w s).2.outcome], Flow.ret⟩
      | Flow.next =>
          let e := exec rest (stmt.step w s).1 (stmt.step w s).2.state
          ⟨e.world, e.state, (stmt.step w s).2.outcome :: e.trace, e.flow⟩

/-- The function that a body defines, as `main` calls it through `test_body`. -/
def body {W : Type} (stmts : List (Stmt W)) (w : W) (s : ctester_test_case_state_t) :
    W × ctester_test_case_state_t :=
  ((exec stmts w s).world, (exec stmts w s).state)

/-! ## A pattern matcher for the examples -/

/-- A matcher for the examples. `fnmatch` is a function of the C library, and
the runner and the theorems take it as a parameter; this is the glob matching of
the patterns built from `*`, `?` and plain characters, which the examples pass
for it. -/
def glob : List Char → List Char → Bool
  | [], s => s.isEmpty
  | p :: ps, s =>
      if p = '*' then s.tails.any (fun t => glob ps t)
      else
        match s with
        | [] => false
        | c :: cs => (decide (p = '?') || decide (p = c)) && glob ps cs

/-- The matcher `glob` with the results of `fnmatch`: 0 for a match and
`FNM_NOMATCH` (1) otherwise. -/
def fnmatch_glob (pattern string : List Char) : Int :=
  if glob pattern string then 0 else 1

/-! ## Properties of the string functions -/

theorem char_toNat_inj (a b : Char) (h : a.toNat = b.toNat) : a = b := by
  apply Char.ext
  cases' a with av ap
  cases' b with bv bp
  simp only [Char.toNat] at h
  cases' av with af
  cases' bv with bf
  simp only [UInt32.toNat] at h
  congr
  exact BitVec.eq_of_toNat_eq h

theorem strcmp_swap (a b : List Char) : strcmp a b = - strcmp b a := by
  induction a generalizing b with
  | nil => cases b <;> simp [strcmp]
  | cons x xs ih =>
    cases b with
    | nil => simp [strcmp]
    | cons y ys =>
      simp only [strcmp]
      by_cases hxy : x = y
      · subst hxy
        by_cases h0 : x.toNat = 0
        · simp [h0]
        · simp [h0, ih ys]
      · have hyx : y ≠ x := fun h => hxy h.symm
        simp [hxy, hyx]

theorem strcmp_self (a : List Char) : strcmp a a = 0 := by
  have h := strcmp_swap a a
  omega

theorem strcmp_le_trans (a b c : List Char) (hab : strcmp a b ≤ 0) (hbc : strcmp b c ≤ 0) :
    strcmp a c ≤ 0 := by
  induction a generalizing b c with
  | nil => cases c <;> simp [strcmp]
  | cons x xs ih =>
    cases b with
    | nil =>
      simp only [strcmp] at hab
      cases c with
      | nil => simp only [strcmp]; omega
      | cons z zs =>
        simp only [strcmp]
        split_ifs <;> omega
    | cons y ys =>
      cases c with
      | nil =>
        simp only [strcmp] at hab hbc ⊢
        by_cases hxy : x = y
        · subst hxy; omega
        · rw [if_pos hxy] at hab
          have : x.toNat = y.toNat := by omega
          exact absurd (char_toNat_inj x y this) hxy
      | cons z zs =>
        simp only [strcmp] at hab hbc ⊢
        by_cases hxy : x = y
        · subst hxy
          by_cases hxz : x = z
          · subst hxz
            simp only [ne_eq, not_true_eq_false, if_false] at hab hbc ⊢
            by_cases h0 : x.toNat = 0
            · simp [h0]
            · rw [if_neg h0] at hab hbc ⊢
              exact ih ys zs hab hbc
          · rw [if_pos hxz] at hbc ⊢
            exact hbc
        · rw [if_pos hxy] at hab
          have hne : x.toNat ≠ y.toNat := fun h => hxy (char_toNat_inj x y h)
          by_cases hyz : y = z
          · subst hyz
            rw [if_pos hxy]
            exact hab
          · rw [if_pos hyz] at hbc
            have hxz : x ≠ z := by
              intro h
              subst h
              omega
            rw [if_pos hxz]
            omega

theorem strcmp_eq_zero_iff (a b : List Char) (ha : IsCStr a) (hb : IsCStr b) :
    strcmp a b = 0 ↔ a = b := by
  constructor
  · intro h
    induction a generalizing b with
    | nil =>
      cases b with
      | nil => rfl
      | cons y ys =>
        simp only [strcmp] at h
        have := hb y (List.mem_cons_self y ys)
        omega
    | cons x xs ih =>
      cases b with
      | nil =>
        simp only [strcmp] at h
        have := ha x (List.mem_cons_self x xs)
        omega
      | cons y ys =>
        simp only [strcmp] at h
        by_cases hxy : x = y
        · subst hxy
          have hx := ha x (List.mem_cons_self x xs)
          simp only [ne_eq, not_true_eq_false, if_false, hx] at h
          have hxs : IsCStr xs := fun c hc => ha c (List.mem_cons_of_mem x hc)
          have hys : IsCStr ys := fun c hc => hb c (List.mem_cons_of_mem x hc)
          rw [ih ys hxs hys h]
        · rw [if_pos hxy] at h
          have : x.toNat = y.toNat := by omega
          exact absurd (char_toNat_inj x y this) hxy
  · intro h
    subst h
    exact strcmp_self a

/-! ## The registry: order, content, independence of the registration order -/

theorem register_perm (test : ctester_test_case_list_t) (root : List ctester_test_case_list_t) :
    (_register test root).Perm (test :: root) := by
  induction root with
  | nil => exact List.Perm.refl _
  | cons next rest ih =>
    simp only [_register]
    split_ifs
    · exact ((List.Perm.cons next ih).trans (List.Perm.swap test next rest))
    · exact List.Perm.refl _

theorem mem_register (d test : ctester_test_case_list_t) (root : List ctester_test_case_list_t) :
    d ∈ _register test root ↔ d = test ∨ d ∈ root := by
  rw [(register_perm test root).mem_iff, List.mem_cons]

theorem register_sorted (test : ctester_test_case_list_t) (root : List ctester_test_case_list_t)
    (h : root.Pairwise (fun d e => strcmp d.full_test_name e.full_test_name ≤ 0)) :
    (_register test root).Pairwise
      (fun d e => strcmp d.full_test_name e.full_test_name ≤ 0) := by
  induction root with
  | nil => simp [_register]
  | cons next rest ih =>
    rw [List.pairwise_cons] at h
    simp only [_register]
    split_ifs with hlt
    · rw [List.pairwise_cons]
      refine ⟨?_, ih h.2⟩
      intro e he
      rcases (mem_register e test rest).1 he with rfl | he
      · omega
      · exact h.1 e he
    · have hle : strcmp test.full_test_name next.full_test_name ≤ 0 := by
        have := strcmp_swap test.full_test_name next.full_test_name
        omega
      rw [List.pairwise_cons, List.pairwise_cons]
      refine ⟨?_, h⟩
      intro e he
      rcases List.mem_cons.1 he with rfl | he
      · exact hle
      · exact strcmp_le_trans _ _ _ hle (h.1 e he)

theorem foldl_register_perm (tests root : List ctester_test_case_list_t) :
    (tests.foldl (fun root test => _register test root) root).Perm (tests ++ root) := by
  induction tests generalizing root with
  | nil => exact List.Perm.refl _
  | cons test tests ih =>
    simp only [List.foldl_cons]
    refine (ih (_register test root)).trans ?_
    refine ((register_perm test root).append_left tests).trans ?_
    simp

theorem foldl_register_sorted (tests root : List ctester_test_case_list_t)
    (h : root.Pairwise (fun d e => strcmp d.full_test_name e.full_test_name ≤ 0)) :
    (tests.foldl (fun root test => _register test root) root).Pairwise
      (fun d e => strcmp d.full_test_name e.full_test_name ≤ 0) := by
  induction tests generalizing root with
  | nil => exact h
  | cons test tests ih => exact ih _ (register_sorted test root h)

theorem root_perm (tests : List ctester_test_case_list_t) :
    (ctester_test_root tests).Perm tests := by
  simpa [ctester_test_root] using foldl_register_perm tests []

theorem root_sorted (tests : List ctester_test_case_list_t) :
    (ctester_test_root tests).Pairwise
      (fun d e => strcmp d.full_test_name e.full_test_name ≤ 0) :=
  foldl_register_sorted tests [] List.Pairwise.nil

theorem print_list_eq (registry : List ctester_test_case_list_t) :
    print_list registry = registry.map (fun d => d.full_test_name) := by
  induction registry with
  | nil => rfl
  | cons test next ih => simp [print_list, ih]

theorem main_options_list (registry : List ctester_test_case_list_t)
    (patterns : List (List Char)) (rest : List Opt) (pattern : List Char) :
    main_options registry (patterns.map Opt.t ++ Opt.l :: rest) pattern
      = Options.exit 0 ((print_list registry).map Output.line) := by
  induction patterns generalizing pattern with
  | nil => simp [main_options]
  | cons p ps ih => simpa [main_options] using ih p

theorem main_options_run (registry : List ctester_test_case_list_t)
    (patterns : List (List Char)) (pattern : List Char) :
    main_options registry (patterns.map Opt.t) pattern
      = Options.run ((pattern :: patterns).getLast (List.cons_ne_nil _ _)) := by
  induction patterns generalizing pattern with
  | nil => simp [main_options]
  | cons p ps ih => simpa [main_options] using ih p

/-- C1. After any sequence of registrations by the constructor of `TEST` on the
empty registry, the list at `ctester_test_root` is in ascending order of the
full names: for two consecutive descriptors `d` and `e`,
`strcmp(d->full_test_name, e->full_test_name) <= 0`. -/
theorem registry_sorted (tests : List ctester_test_case_list_t) :
    (ctester_test_root tests).Chain'
      (fun d e => strcmp d.full_test_name e.full_test_name ≤ 0) :=
  (root_sorted tests).chain'

/-- C2. Registration neither loses nor duplicates a descriptor: the list at
`ctester_test_root` has the length of the sequence of registered descriptors and
is a permutation of it; `print_list` prints the full names of this list in its
order, so every registered name once and in ascending order; and `main` run with
`-l` after any number of `-t` options prints these lines and exits with 0,
whatever the patterns, the matcher, the bodies and the options that follow. -/
theorem registry_complete_and_listed (tests : List ctester_test_case_list_t) :
    (ctester_test_root tests).length = tests.length
    ∧ (ctester_test_root tests).Perm tests
    ∧ print_list (ctester_test_root tests)
        = (ctester_test_root tests).map (fun d => d.full_test_name)
    ∧ (print_list (ctester_test_root tests)).Perm (tests.map (fun d => d.full_test_name))
    ∧ (print_list (ctester_test_root tests)).Chain' (fun a b => strcmp a b ≤ 0)
    ∧ ∀ (W : Type) (fnmatch : List Char → List Char → Int)
        (call : Nat → W → ctester_test_case_state_t → W × ctester_test_case_state_t)
        (patterns : List (List Char)) (rest : List Opt) (world : W),
        (main fnmatch call (ctester_test_root tests)
            (patterns.map Opt.t ++ Opt.l :: rest) world).code = 0
        ∧ (main fnmatch call (ctester_test_root tests)
            (patterns.map Opt.t ++ Opt.l :: rest) world).out
          = (print_list (ctester_test_root tests)).map Output.line := by
  refine ⟨(root_perm tests).length_eq, root_perm tests, print_list_eq _, ?_, ?_, ?_⟩
  · rw [print_list_eq]
    exact (root_perm tests).map _
  · rw [print_list_eq, List.chain'_map]
    exact (root_sorted tests).chain'
  · intro W fnmatch call patterns rest world
    simp [main, main_options_list]

theorem root_strictly_sorted (tests : List ctester_test_case_list_t)
    (h : tests.Pairwise (fun d e => strcmp d.full_test_name e.full_test_name ≠ 0)) :
    (ctester_test_root tests).Pairwise
      (fun d e => strcmp d.full_test_name e.full_test_name < 0) := by
  have hsymm : ∀ {x y : ctester_test_case_list_t},
      strcmp x.full_test_name y.full_test_name ≠ 0 →
      strcmp y.full_test_name x.full_test_name ≠ 0 := by
    intro x y hxy
    have := strcmp_swap x.full_test_name y.full_test_name
    omega
  have hne := ((root_perm tests).pairwise_iff hsymm).2 h
  refine List.Pairwise.imp₂ ?_ (root_sorted tests) hne
  intro a b hle hab
  omega

theorem root_eq_of_perm (tests tests' : List ctester_test_case_list_t)
    (hperm : tests.Perm tests')
    (h : tests.Pairwise (fun d e => strcmp d.full_test_name e.full_test_name ≠ 0)) :
    ctester_test_root tests = ctester_test_root tests' := by
  have hsymm : ∀ {x y : ctester_test_case_list_t},
      strcmp x.full_test_name y.full_test_name ≠ 0 →
      strcmp y.full_test_name x.full_test_name ≠ 0 := by
    intro x y hxy
    have := strcmp_swap x.full_test_name y.full_test_name
    omega
  have h' := (hperm.pairwise_iff hsymm).1 h
  haveI : IsAntisymm ctester_test_case_list_t
      (fun d e => strcmp d.full_test_name e.full_test_name < 0) :=
    ⟨fun a b hab hba => by
      have := strcmp_swap a.full_test_name b.full_test_name
      omega⟩
  exact List.eq_of_perm_of_sorted
    (((root_perm tests).trans hperm).trans (root_perm tests').symm)
    (root_strictly_sorted tests h) (root_strictly_sorted tests' h')

theorem distinct_names (tests : List ctester_test_case_list_t)
    (hnodup : (tests.map (fun d => d.full_test_name)).Nodup)
    (hstr : ∀ d ∈ tests, IsCStr d.full_test_name) :
    tests.Pairwise (fun d e => strcmp d.full_test_name e.full_test_name ≠ 0) := by
  have h : tests.Pairwise (fun d e => d.full_test_name ≠ e.full_test_name) :=
    (List.pairwise_map).1 hnodup
  refine List.Pairwise.imp_of_mem ?_ h
  intro a b ha hb hab h0
  exact hab ((strcmp_eq_zero_iff _ _ (hstr a ha) (hstr b hb)).1 h0)

/-- C3. The registry does not depend on the order of registration: when the
full names of the descriptors are C strings and pairwise distinct, two orders of
registration on the empty registry give the same list at `ctester_test_root`,
hence the same sequence of full names. -/
theorem registry_order_independent (tests tests' : List ctester_test_case_list_t)
    (hperm : tests.Perm tests')
    (hnodup : (tests.map (fun d => d.full_test_name)).Nodup)
    (hstr : ∀ d ∈ tests, IsCStr d.full_test_name) :
    ctester_test_root tests = ctester_test_root tests'
    ∧ (ctester_test_root tests).map (fun d => d.full_test_name)
        = (ctester_test_root tests').map (fun d => d.full_test_name) := by
  have h := root_eq_of_perm tests tests' hperm (distinct_names tests hnodup hstr)
  exact ⟨h, by rw [h]⟩

theorem registry_order_independent_witness :
    ctester_test_root [TEST "B".toList "x".toList 0, TEST "A".toList "z".toList 1,
        TEST "A".toList "y".toList 2]
      = ctester_test_root [TEST "A".toList "y".toList 2, TEST "B".toList "x".toList 0,
        TEST "A".toList "z".toList 1]
    ∧ (ctester_test_root [TEST "B".toList "x".toList 0, TEST "A".toList "z".toList 1,
        TEST "A".toList "y".toList 2]).map (fun d => d.full_test_name)
      = (ctester_test_root [TEST "A".toList "y".toList 2, TEST "B".toList "x".toList 0,
        TEST "A".toList "z".toList 1]).map (fun d => d.full_test_name) :=
  registry_order_independent _ _ (by decide) (by decide) (by decide)

/-! ## The selection loop -/

theorem fnmatch_glob_self (name : List Char) (h : '*' ∉ name) :
    fnmatch_glob name name = 0 := by
  have hg : glob name name = true := by
    induction name with
    | nil => simp [glob]
    | cons c cs ih =>
      have hc : c ≠ '*' := fun e => h (e ▸ List.mem_cons_self c cs)
      have hcs : '*' ∉ cs := fun e => h (List.mem_cons_of_mem c e)
      simp [glob, hc, ih hcs]
  simp [fnmatch_glob, hg]

theorem strncmp_eq_zero_iff (p a : List Char) (hp : IsCStr p) :
    strncmp a p p.length = 0 ↔ p <+: a := by
  induction p generalizing a with
  | nil => simp [strncmp]
  | cons y ys ih =>
    have hy := hp y (List.mem_cons_self y ys)
    have hys : IsCStr ys := fun c hc => hp c (List.mem_cons_of_mem y hc)
    cases a with
    | nil =>
      simp only [List.length_cons, strncmp]
      constructor
      · intro h; omega
      · intro h; simp at h
    | cons x xs =>
      simp only [List.length_cons, strncmp, List.cons_prefix_cons]
      by_cases hxy : x = y
      · subst hxy
        simp only [ne_eq, not_true_eq_false, if_false, hy, true_and]
        exact ih xs hys
      · rw [if_pos hxy]
        constructor
        · intro h
          have : x.toNat = y.toNat := by omega
          exact absurd (char_toNat_inj x y this) hxy
        · intro h
          exact absurd h.1.symm hxy

theorem strncmp_disabled (name : List Char) :
    strncmp name DISABLED_ 9 = 0 ↔ DISABLED_ <+: name :=
  strncmp_eq_zero_iff DISABLED_ name (by decide)

theorem select_step_some (fnmatch : List Char → List Char → Int)
    (registry : List ctester_test_case_list_t) (pattern : List Char) (s : Selection)
    (k : Nat) (test : ctester_test_case_list_t) (hk : registry[k]? = some test) :
    (select_step fnmatch registry pattern s k).state
        = (if select_schedules fnmatch pattern test then
            Function.update s.state k _CTESTER_STATE_SCHEDULED else s.state)
    ∧ (select_step fnmatch registry pattern s k).total_test_count
        = s.total_test_count + (if select_schedules fnmatch pattern test then 1 else 0)
    ∧ (select_step fnmatch registry pattern s k).total_disabled_tests
        = s.total_disabled_tests + (if select_skips fnmatch pattern test then 1 else 0) := by
  unfold select_step
  simp only [hk, select_schedules, select_skips]
  by_cases hm : fnmatch pattern test.full_test_name = 0
  · by_cases hd : strncmp test.test_name DISABLED_ 9 = 0
        ∧ strcmp test.full_test_name pattern ≠ 0
    · simp [hm, hd]
    · simp [hm, hd]
  · simp [hm]

theorem select_loop_upto (fnmatch : List Char → List Char → Int)
    (registry : List ctester_test_case_list_t) (pattern : List Char) (k : Nat)
    (hk : k ≤ registry.length) :
    (∀ j d, registry[j]? = some d →
      ((List.range k).foldl (select_step fnmatch registry pattern)
          (Selection.init registry)).state j
        = if j < k ∧ select_schedules fnmatch pattern d = true then _CTESTER_STATE_SCHEDULED
          else d.state)
    ∧ ((List.range k).foldl (select_step fnmatch registry pattern)
          (Selection.init registry)).total_test_count
        = ((registry.take k).countP (select_schedules fnmatch pattern) : Nat)
    ∧ ((List.range k).foldl (select_step fnmatch registry pattern)
          (Selection.init registry)).total_disabled_tests
        = ((registry.take k).countP (select_skips fnmatch pattern) : Nat) := by
  induction k with
  | zero =>
    refine ⟨?_, by simp [Selection.init], by simp [Selection.init]⟩
    intro j d hj
    simp [Selection.init, hj]
  | succ k ih =>
    have hlt : k < registry.length := hk
    obtain ⟨hst, htc, htd⟩ := ih (Nat.le_of_lt hlt)
    have hget : registry[k]? = some registry[k] := List.getElem?_eq_getElem hlt
    obtain ⟨h1, h2, h3⟩ := select_step_some fnmatch registry pattern
      ((List.range k).foldl (select_step fnmatch registry pattern) (Selection.init registry))
      k registry[k] hget
    rw [List.range_succ, List.foldl_append, List.foldl_cons, List.foldl_nil]
    refine ⟨?_, ?_, ?_⟩
    · intro j d hj
      rw [h1]
      by_cases hjk : j = k
      · subst hjk
        have hd : d = registry[j] := by
          rw [hget] at hj
          exact (Option.some.inj hj).symm
        subst hd
        by_cases hs : select_schedules fnmatch pattern registry[j] = true
        · simp [hs]
        · have := hst j registry[j] hget
          simp [hs, this]
      · have := hst j d hj
        have hiff : j < k + 1 ↔ j < k := by omega
        by_cases hs : select_schedules fnmatch pattern registry[k] = true
        · simp [hs, Function.update_noteq hjk, this, hiff]
        · simp [hs, this, hiff]
    · rw [h2, htc, List.take_succ, hget, List.countP_append]
      simp [List.countP_cons]
    · rw [h3, htd, List.take_succ, hget, List.countP_append]
      simp [List.countP_cons]

theorem select_loop_spec (fnmatch : List Char → List Char → Int)
    (registry : List ctester_test_case_list_t) (pattern : List Char) :
    (∀ j d, registry[j]? = some d →
      (select_loop fnmatch registry pattern).state j
        = if select_schedules fnmatch pattern d = true then _CTESTER_STATE_SCHEDULED
          else d.state)
    ∧ (select_loop fnmatch registry pattern).total_test_count
        = (registry.countP (select_schedules fnmatch pattern) : Nat)
    ∧ (select_loop fnmatch registry pattern).total_disabled_tests
        = (registry.countP (select_skips fnmatch pattern) : Nat) := by
  obtain ⟨h1, h2, h3⟩ := select_loop_upto fnmatch registry pattern registry.length (Nat.le_refl _)
  refine ⟨?_, ?_, ?_⟩
  · intro j d hj
    have hlt : j < registry.length := (List.getElem?_eq_some.1 hj).1
    have := h1 j d hj
    simpa [select_loop, hlt] using this
  · simpa [select_loop] using h2
  · simpa [select_loop] using h3

theorem select_state_iff (fnmatch : List Char → List Char → Int)
    (registry : List ctester_test_case_list_t) (pattern : List Char)
    (i : Nat) (d : ctester_test_case_list_t) (hi : registry[i]? = some d)
    (hd : d.state = _CTESTER_STATE_DEFAULT) :
    (select_loop fnmatch registry pattern).state i = _CTESTER_STATE_SCHEDULED
      ↔ (fnmatch pattern d.full_test_name = 0
          ∧ ¬ (DISABLED_ <+: d.test_name ∧ strcmp d.full_test_name pattern ≠ 0)) := by
  rw [(select_loop_spec fnmatch registry pattern).1 i d hi, hd]
  by_cases hs : select_schedules fnmatch pattern d = true
  · rw [if_pos hs]
    have hs' := hs
    simp only [select_schedules, decide_eq_true_eq, strncmp_disabled] at hs'
    simp [hs']
  · rw [if_neg hs]
    have hs' := hs
    simp only [select_schedules, decide_eq_true_eq, strncmp_disabled] at hs'
    simp only [_CTESTER_STATE_DEFAULT, _CTESTER_STATE_SCHEDULED]
    constructor
    · intro h; omega
    · intro h; exact absurd h hs'

/-- C4. The selection rule of `main`, for a registry whose descriptors have the
state 0 that `TEST` gives them and C strings as full names, for a pattern that
is a C string, and for a matcher that matches the full name of a disabled test
against itself (as `fnmatch` does for a name made of identifiers and a dot): a
test whose `test_name` does not begin with `DISABLED_` is marked scheduled if
and only if the pattern matches its full name; a test whose `test_name` begins
with `DISABLED_` is marked scheduled if and only if the pattern is equal to its
full name, and otherwise is not scheduled; a test that the pattern does not
match is not scheduled; `total_disabled_tests` counts the tests that begin with
`DISABLED_`, are matched, and whose full name is not the pattern. -/
theorem selection_rule (fnmatch : List Char → List Char → Int)
    (registry : List ctester_test_case_list_t) (pattern : List Char)
    (hstate : ∀ d ∈ registry, d.state = _CTESTER_STATE_DEFAULT)
    (hstr : ∀ d ∈ registry, IsCStr d.full_test_name) (hpat : IsCStr pattern)
    (hself : ∀ d ∈ registry, DISABLED_ <+: d.test_name →
      fnmatch d.full_test_name d.full_test_name = 0) :
    (∀ i d, registry[i]? = some d →
      (¬ DISABLED_ <+: d.test_name →
        ((select_loop fnmatch registry pattern).state i = _CTESTER_STATE_SCHEDULED
          ↔ fnmatch pattern d.full_test_name = 0))
      ∧ (DISABLED_ <+: d.test_name →
        ((select_loop fnmatch registry pattern).state i = _CTESTER_STATE_SCHEDULED
          ↔ pattern = d.full_test_name))
      ∧ (DISABLED_ <+: d.test_name → fnmatch pattern d.full_test_name = 0 →
          pattern ≠ d.full_test_name →
          (select_loop fnmatch registry pattern).state i ≠ _CTESTER_STATE_SCHEDULED)
      ∧ (fnmatch pattern d.full_test_name ≠ 0 →
          (select_loop fnmatch registry pattern).state i ≠ _CTESTER_STATE_SCHEDULED))
    ∧ (select_loop fnmatch registry pattern).total_disabled_tests
        = (registry.countP (fun d => decide (DISABLED_ <+: d.test_name
            ∧ fnmatch pattern d.full_test_name = 0 ∧ pattern ≠ d.full_test_name)) : Nat) := by
  have heq : ∀ d ∈ registry, (strcmp d.full_test_name pattern = 0 ↔ pattern = d.full_test_name) := by
    intro d hd
    rw [strcmp_eq_zero_iff _ _ (hstr d hd) hpat]
    exact eq_comm
  refine ⟨?_, ?_⟩
  · intro i d hi
    have hmem : d ∈ registry := List.getElem?_mem hi
    have hiff := select_state_iff fnmatch registry pattern i d hi (hstate d hmem)
    have he := heq d hmem
    refine ⟨?_, ?_, ?_, ?_⟩
    · intro hnd
      rw [hiff]
      constructor
      · intro h; exact h.1
      · intro h; exact ⟨h, fun h2 => hnd h2.1⟩
    · intro hdis
      rw [hiff]
      constructor
      · intro h
        by_contra hne
        exact h.2 ⟨hdis, fun h0 => hne (he.1 h0)⟩
      · intro h
        refine ⟨?_, ?_⟩
        · rw [h]; exact hself d hmem hdis
        · intro h2; exact h2.2 (he.2 h)
    · intro hdis _ hne h
      exact (hiff.1 h).2 ⟨hdis, fun h0 => hne (he.1 h0)⟩
    · intro hnm h
      exact hnm (hiff.1 h).1
  · rw [(select_loop_spec fnmatch registry pattern).2.2]
    congr 1
    apply List.countP_congr
    intro d hd
    have he := heq d hd
    simp only [select_skips, decide_eq_true_eq, strncmp_disabled]
    constructor
    · intro h; exact ⟨h.2.1, h.1, fun h2 => h.2.2 (he.2 h2)⟩
    · intro h; exact ⟨h.2.1, h.1, fun h2 => h.2.2 (he.1 h2)⟩

theorem selection_rule_witness :
    ((select_loop fnmatch_glob [TEST "A".toList "DISABLED_x".toList 0,
        TEST "A".toList "y".toList 1, TEST "B".toList "z".toList 2] "A.*".toList).state 0
        ≠ _CTESTER_STATE_SCHEDULED)
    ∧ (select_loop fnmatch_glob [TEST "A".toList "DISABLED_x".toList 0,
        TEST "A".toList "y".toList 1, TEST "B".toList "z".toList 2] "A.*".toList).state 1
        = _CTESTER_STATE_SCHEDULED
    ∧ ((select_loop fnmatch_glob [TEST "A".toList "DISABLED_x".toList 0,
        TEST "A".toList "y".toList 1, TEST "B".toList "z".toList 2] "A.*".toList).state 2
        ≠ _CTESTER_STATE_SCHEDULED) :=
  have h := selection_rule fnmatch_glob [TEST "A".toList "DISABLED_x".toList 0,
      TEST "A".toList "y".toList 1, TEST "B".toList "z".toList 2] "A.*".toList
    (by decide) (by decide) (by decide) (by decide)
  ⟨(h.1 0 _ rfl).2.2.1 (by decide) (by decide) (by decide),
   ((h.1 1 _ rfl).1 (by decide)).2 (by decide),
   (h.1 2 _ rfl).2.2.2 (by decide)⟩

theorem full_name_ne_star (d : ctester_test_case_list_t)
    (hfull : d.full_test_name = d.test_case_name ++ '.' :: d.test_name) :
    d.full_test_name ≠ "*".toList := by
  intro h
  have hmem : '.' ∈ d.full_test_name := by
    rw [hfull]
    simp
  rw [h] at hmem
  revert hmem
  decide

/-- C5. With the default pattern `*`, for a registry of descriptors as `TEST`
defines them (full name `test_case_name.test_name`, state 0) whose full names
are C strings, and a matcher for which `*` matches every full name: the
selection loop marks scheduled exactly the tests whose `test_name` does not
begin with `DISABLED_`, `total_test_count` is their number,
`total_disabled_tests` is the number of the tests whose `test_name` begins with
`DISABLED_`, and `main` without a `-t` option selects with this pattern. -/
theorem default_pattern_selection (fnmatch : List Char → List Char → Int)
    (registry : List ctester_test_case_list_t)
    (hTEST : ∀ d ∈ registry, d = TEST d.test_case_name d.test_name d.test_body)
    (hstr : ∀ d ∈ registry, IsCStr d.full_test_name)
    (hstar : ∀ d ∈ registry, fnmatch "*".toList d.full_test_name = 0) :
    (∀ i d, registry[i]? = some d →
      ((select_loop fnmatch registry "*".toList).state i = _CTESTER_STATE_SCHEDULED
        ↔ ¬ DISABLED_ <+: d.test_name))
    ∧ (select_loop fnmatch registry "*".toList).total_test_count
        = (registry.countP (fun d => decide (¬ DISABLED_ <+: d.test_name)) : Nat)
    ∧ (select_loop fnmatch registry "*".toList).total_disabled_tests
        = (registry.countP (fun d => decide (DISABLED_ <+: d.test_name)) : Nat)
    ∧ ∀ (W : Type)
        (call : Nat → W → ctester_test_case_state_t → W × ctester_test_case_state_t)
        (world : W),
        (main fnmatch call registry [] world).selection
          = some (select_loop fnmatch registry "*".toList) := by
  have hne : ∀ d ∈ registry, strcmp d.full_test_name "*".toList ≠ 0 := by
    intro d hd h0
    have hfull : d.full_test_name = d.test_case_name ++ '.' :: d.test_name := by
      conv_lhs => rw [hTEST d hd]
      rfl
    exact full_name_ne_star d hfull
      ((strcmp_eq_zero_iff _ _ (hstr d hd) (by decide)).1 h0)
  have hstate : ∀ d ∈ registry, d.state = _CTESTER_STATE_DEFAULT := by
    intro d hd
    rw [hTEST d hd]
    rfl
  refine ⟨?_, ?_, ?_, ?_⟩
  · intro i d hi
    have hmem : d ∈ registry := List.getElem?_mem hi
    rw [select_state_iff fnmatch registry "*".toList i d hi (hstate d hmem)]
    constructor
    · intro h hdis
      exact h.2 ⟨hdis, hne d hmem⟩
    · intro h
      exact ⟨hstar d hmem, fun h2 => h h2.1⟩
  · rw [(select_loop_spec fnmatch registry "*".toList).2.1]
    congr 1
    apply List.countP_congr
    intro d hd
    simp only [select_schedules, decide_eq_true_eq, strncmp_disabled]
    constructor
    · intro h hdis
      exact h.2 ⟨hdis, hne d hd⟩
    · intro h
      exact ⟨hstar d hd, fun h2 => h h2.1⟩
  · rw [(select_loop_spec fnmatch registry "*".toList).2.2]
    congr 1
    apply List.countP_congr
    intro d hd
    simp only [select_skips, decide_eq_true_eq, strncmp_disabled]
    constructor
    · intro h
      exact h.2.1
    · intro h
      exact ⟨hstar d hd, h, hne d hd⟩
  · intro W call world
    simp only [main, main_options, main_tests]
    split_ifs <;> rfl

theorem default_pattern_selection_witness :
    (select_loop fnmatch_glob [TEST "A".toList "DISABLED_x".toList 0,
        TEST "A".toList "y".toList 1, TEST "B".toList "z".toList 2] "*".toList).total_test_count
      = 2
    ∧ (select_loop fnmatch_glob [TEST "A".toList "DISABLED_x".toList 0,
        TEST "A".toList "y".toList 1, TEST "B".toList "z".toList 2]
          "*".toList).total_disabled_tests
      = 1 :=
  have h := default_pattern_selection fnmatch_glob [TEST "A".toList "DISABLED_x".toList 0,
      TEST "A".toList "y".toList 1, TEST "B".toList "z".toList 2]
    (by decide) (by decide) (by decide)
  ⟨h.2.1.trans (by decide), h.2.2.1.trans (by decide)⟩

/-! ## The run loop -/

theorem run_step_scheduled {W : Type}
    (call : Nat → W → ctester_test_case_state_t → W × ctester_test_case_state_t)
    (registry : List ctester_test_case_list_t) (number_of_tests : Nat → Int)
    (r : Run W) (k : Nat) (test : ctester_test_case_list_t)
    (hk : registry[k]? = some test) (hs : r.state k = _CTESTER_STATE_SCHEDULED) :
    (run_step call registry number_of_tests r k).state
        = Function.update r.state k
            (if (call test.test_body r.world ⟨0, 0⟩).2.failed = 0 then _CTESTER_STATE_SUCCEEDED
             else _CTESTER_STATE_FAILED)
    ∧ (run_step call registry number_of_tests r k).invoked
        = r.invoked ++ [⟨k, ⟨0, 0⟩, (call test.test_body r.world ⟨0, 0⟩).2⟩]
    ∧ (run_step call registry number_of_tests r k).passed_tests
        = (if (call test.test_body r.world ⟨0, 0⟩).2.failed = 0 then
            (r.passed_tests + 1) % 2 ^ 32 else r.passed_tests)
    ∧ (run_step call registry number_of_tests r k).failed_tests
        = (if (call test.test_body r.world ⟨0, 0⟩).2.failed = 0 then r.failed_tests
           else (r.failed_tests + 1) % 2 ^ 32)
    ∧ (run_step call registry number_of_tests r k).world
        = (call test.test_body r.world ⟨0, 0⟩).1 := by
  unfold run_step
  simp only [hk]
  split_ifs <;> simp_all

theorem run_step_not_scheduled {W : Type}
    (call : Nat → W → ctester_test_case_state_t → W × ctester_test_case_state_t)
    (registry : List ctester_test_case_list_t) (number_of_tests : Nat → Int)
    (r : Run W) (k : Nat) (test : ctester_test_case_list_t)
    (hk : registry[k]? = some test) (hs : r.state k ≠ _CTESTER_STATE_SCHEDULED) :
    (run_step call registry number_of_tests r k).state = r.state
    ∧ (run_step call registry number_of_tests r k).invoked = r.invoked
    ∧ (run_step call registry number_of_tests r k).passed_tests = r.passed_tests
    ∧ (run_step call registry number_of_tests r k).failed_tests = r.failed_tests
    ∧ (run_step call registry number_of_tests r k).world = r.world := by
  unfold run_step
  simp only [hk]
  split_ifs <;> simp_all

theorem run_loop_upto {W : Type}
    (call : Nat → W → ctester_test_case_state_t → W × ctester_test_case_state_t)
    (registry : List ctester_test_case_list_t) (sel : Selection) (world : W) (k : Nat)
    (hk : k ≤ registry.length) :
    (∀ j, k ≤ j →
      ((List.range k).foldl (run_step call registry sel.number_of_tests)
        (Run.init sel world)).state j = sel.state j)
    ∧ ((List.range k).foldl (run_step call registry sel.number_of_tests)
        (Run.init sel world)).invoked.map (fun inv => inv.position)
      = (List.range k).filter (fun j => decide (sel.state j = _CTESTER_STATE_SCHEDULED))
    ∧ (∀ inv ∈ ((List.range k).foldl (run_step call registry sel.number_of_tests)
        (Run.init sel world)).invoked,
        inv.given = ⟨0, 0⟩ ∧ inv.position < k
        ∧ ((List.range k).foldl (run_step call registry sel.number_of_tests)
            (Run.init sel world)).state inv.position
          = (if inv.left.failed = 0 then _CTESTER_STATE_SUCCEEDED else _CTESTER_STATE_FAILED)
        ∧ ∃ d w, registry[inv.position]? = some d
            ∧ inv.left = (call d.test_body w inv.given).2)
    ∧ ((List.range k).foldl (run_step call registry sel.number_of_tests)
        (Run.init sel world)).passed_tests
      = (((List.range k).foldl (run_step call registry sel.number_of_tests)
          (Run.init sel world)).invoked.countP
            (fun inv => decide (inv.left.failed = 0))) % 2 ^ 32
    ∧ ((List.range k).foldl (run_step call registry sel.number_of_tests)
        (Run.init sel world)).failed_tests
      = (((List.range k).foldl (run_step call registry sel.number_of_tests)
          (Run.init sel world)).invoked.countP
            (fun inv => decide (inv.left.failed ≠ 0))) % 2 ^ 32 := by
  induction k with
  | zero => simp [Run.init]
  | succ k ih =>
    have hlt : k < registry.length := hk
    obtain ⟨h1, h2, h3, h4, h5⟩ := ih (Nat.le_of_lt hlt)
    have hget : registry[k]? = some registry[k] := List.getElem?_eq_getElem hlt
    rw [List.range_succ, List.foldl_append, List.foldl_cons, List.foldl_nil]
    generalize hr : (List.range k).foldl (run_step call registry sel.number_of_tests)
      (Run.init sel world) = r at h1 h2 h3 h4 h5 ⊢
    have hrk : r.state k = sel.state k := h1 k (Nat.le_refl k)
    by_cases hs : sel.state k = _CTESTER_STATE_SCHEDULED
    · obtain ⟨e1, e2, e3, e4, _⟩ := run_step_scheduled call registry sel.number_of_tests
        r k registry[k] hget (hrk.trans hs)
      refine ⟨?_, ?_, ?_, ?_, ?_⟩
      · intro j hj
        rw [e1, Function.update_noteq (by omega)]
        exact h1 j (by omega)
      · rw [e2, List.map_append, h2, List.filter_append]
        simp [hs]
      · intro inv hinv
        rw [e2, List.mem_append, List.mem_singleton] at hinv
        rcases hinv with hinv | hinv
        · obtain ⟨g1, g2, g3, g4⟩ := h3 inv hinv
          refine ⟨g1, by omega, ?_, g4⟩
          rw [e1, Function.update_noteq (by omega)]
          exact g3
        · subst hinv
          refine ⟨rfl, by simp, ?_, registry[k], r.world, hget, rfl⟩
          rw [e1]
          simp
      · rw [e3, e2, List.countP_append, h4]
        by_cases hf : (call registry[k].test_body r.world ⟨0, 0⟩).2.failed = 0
        · simp [hf, Nat.add_mod]
        · simp [hf]
      · rw [e4, e2, List.countP_append, h5]
        by_cases hf : (call registry[k].test_body r.world ⟨0, 0⟩).2.failed = 0
        · simp [hf]
        · simp [hf, Nat.add_mod]
    · obtain ⟨e1, e2, e3, e4, _⟩ := run_step_not_scheduled call registry sel.number_of_tests
        r k registry[k] hget (fun h => hs (hrk.symm.trans h))
      refine ⟨?_, ?_, ?_, ?_, ?_⟩
      · intro j hj
        rw [e1]
        exact h1 j (by omega)
      · rw [e2, h2, List.filter_append]
        simp [hs]
      · intro inv hinv
        rw [e2] at hinv
        obtain ⟨g1, g2, g3, g4⟩ := h3 inv hinv
        refine ⟨g1, by omega, ?_, g4⟩
        rw [e1]
        exact g3
      · rw [e3, e2, h4]
      · rw [e4, e2, h5]

theorem run_loop_spec {W : Type}
    (call : Nat → W → ctester_test_case_state_t → W × ctester_test_case_state_t)
    (registry : List ctester_test_case_list_t) (sel : Selection) (world : W) :
    (run_loop call registry sel world).invoked.map (fun inv => inv.position)
      = (List.range registry.length).filter
          (fun j => decide (sel.state j = _CTESTER_STATE_SCHEDULED))
    ∧ (∀ inv ∈ (run_loop call registry sel world).invoked,
        inv.given = ⟨0, 0⟩ ∧ inv.position < registry.length
        ∧ (run_loop call registry sel world).state inv.position
          = (if inv.left.failed = 0 then _CTESTER_STATE_SUCCEEDED else _CTESTER_STATE_FAILED)
        ∧ ∃ d w, registry[inv.position]? = some d
            ∧ inv.left = (call d.test_body w inv.given).2)
    ∧ (run_loop call registry sel world).passed_tests
      = ((run_loop call registry sel world).invoked.countP
            (fun inv => decide (inv.left.failed = 0))) % 2 ^ 32
    ∧ (run_loop call registry sel world).failed_tests
      = ((run_loop call registry sel world).invoked.countP
            (fun inv => decide (inv.left.failed ≠ 0))) % 2 ^ 32 :=
  (run_loop_upto call registry sel world registry.length (Nat.le_refl _)).2

theorem main_tests_run {W : Type} (fnmatch : List Char → List Char → Int)
    (call : Nat → W → ctester_test_case_state_t → W × ctester_test_case_state_t)
    (registry : List ctester_test_case_list_t) (pattern : List Char) (world : W) :
    (main_tests fnmatch call registry pattern world).run
      = some (run_loop call registry (select_loop fnmatch registry pattern) world) := by
  simp only [main_tests]
  split_ifs <;> rfl

/-- C6. The run loop of `main` calls the bodies of exactly the descriptors that
are marked scheduled, each once and in the order of the registry, whatever the
bodies return (a body being a function that returns): the positions of the
calls are the positions of the registry, in ascending order, filtered to those
in state scheduled; every call is given a state with `failed == 0` and
`warning == 0`, and leaves what the body of the descriptor at its position
returns; and this is the run of `main`. -/
theorem run_loop_invokes_scheduled {W : Type}
    (call : Nat → W → ctester_test_case_state_t → W × ctester_test_case_state_t)
    (registry : List ctester_test_case_list_t) (sel : Selection) (world : W) :
    (run_loop call registry sel world).invoked.map (fun inv => inv.position)
      = (List.range registry.length).filter
          (fun j => decide (sel.state j = _CTESTER_STATE_SCHEDULED))
    ∧ ((run_loop call registry sel world).invoked.map (fun inv => inv.position)).Pairwise
        (fun i j => i < j)
    ∧ (∀ inv ∈ (run_loop call registry sel world).invoked,
        inv.given.failed = 0 ∧ inv.given.warning = 0
        ∧ ∃ d w, registry[inv.position]? = some d
            ∧ inv.left = (call d.test_body w inv.given).2)
    ∧ ∀ (fnmatch : List Char → List Char → Int) (pattern : List Char),
        (main_tests fnmatch call registry pattern world).run
          = some (run_loop call registry (select_loop fnmatch registry pattern) world) := by
  obtain ⟨h1, h2, _, _⟩ := run_loop_spec call registry sel world
  refine ⟨h1, ?_, ?_, ?_⟩
  · rw [h1]
    exact (List.pairwise_lt_range registry.length).filter _
  · intro inv hinv
    obtain ⟨g1, _, _, g4⟩ := h2 inv hinv
    refine ⟨?_, ?_, g4⟩
    · rw [g1]
    · rw [g1]
  · intro fnmatch pattern
    exact main_tests_run fnmatch call registry pattern world

/-! ## Test bodies -/

theorem step_effect {W : Type} (stmt : Stmt W) (w : W) (s : ctester_test_case_state_t) :
    (((stmt.step w s).2.outcome = Outcome.ran ∨ (stmt.step w s).2.outcome = Outcome.held)
        ∧ (stmt.step w s).2.state = s ∧ (stmt.step w s).2.flow = Flow.next)
    ∨ ((stmt.step w s).2.outcome = Outcome.warned
        ∧ (stmt.step w s).2.state = { s with warning := s.warning + 1 }
        ∧ (stmt.step w s).2.flow = Flow.next)
    ∨ ((stmt.step w s).2.outcome = Outcome.added
        ∧ (stmt.step w s).2.state = { s with warning := s.warning + 1 }
        ∧ (stmt.step w s).2.flow = Flow.ret)
    ∨ ((stmt.step w s).2.outcome = Outcome.aborted
        ∧ (stmt.step w s).2.state.warning = s.warning
        ∧ (stmt.step w s).2.flow = Flow.ret) := by
  cases stmt with
  | ASSERT2 CMP a b line =>
    simp only [Stmt.step, _CTESTER_ASSERT2, assert_failed]
    split_ifs <;> simp
  | EXPECT2 CMP a b =>
    simp only [Stmt.step, _CTESTER_EXPECT2, expect_failed]
    split_ifs <;> simp
  | ASSERT2P PRED a b line =>
    simp only [Stmt.step, _CTESTER_ASSERT2P, assert_failed]
    split_ifs <;> simp
  | EXPECT2P PRED a b =>
    simp only [Stmt.step, _CTESTER_EXPECT2P, expect_failed]
    split_ifs <;> simp
  | ASSERT1P PRED a line =>
    simp only [Stmt.step, _CTESTER_ASSERT1P, assert_failed]
    split_ifs <;> simp
  | EXPECT1P PRED a =>
    simp only [Stmt.step, _CTESTER_EXPECT1P, expect_failed]
    split_ifs <;> simp
  | ASSERT_DEATH statement line =>
    simp only [Stmt.step, _CTESTER_TEST_DEATH, assert_failed]
    split <;> simp
  | EXPECT_DEATH statement =>
    simp only [Stmt.step, _CTESTER_TEST_DEATH, expect_failed]
    split <;> simp
  | ASSERT_EXIT statement exit_code line =>
    simp only [Stmt.step, _CTESTER_TEST_EXIT, assert_failed]
    split
    · simp
    · split_ifs <;> simp
  | EXPECT_EXIT statement exit_code =>
    simp only [Stmt.step, _CTESTER_TEST_EXIT, expect_failed]
    split
    · simp
    · split_ifs <;> simp
  | FAIL line => simp [Stmt.step]
  | ADD_FAILURE => simp [Stmt.step]
  | other f => simp [Stmt.step]

theorem exec_cons_next {W : Type} (stmt : Stmt W) (rest : List (Stmt W)) (w : W)
    (s : ctester_test_case_state_t) (h : (stmt.step w s).2.flow = Flow.next) :
    exec (stmt :: rest) w s
      = ⟨(exec rest (stmt.step w s).1 (stmt.step w s).2.state).world,
         (exec rest (stmt.step w s).1 (stmt.step w s).2.state).state,
         (stmt.step w s).2.outcome :: (exec rest (stmt.step w s).1 (stmt.step w s).2.state).trace,
         (exec rest (stmt.step w s).1 (stmt.step w s).2.state).flow⟩ := by
  simp only [exec, h]

theorem exec_cons_ret {W : Type} (stmt : Stmt W) (rest : List (Stmt W)) (w : W)
    (s : ctester_test_case_state_t) (h : (stmt.step w s).2.flow = Flow.ret) :
    exec (stmt :: rest) w s
      = ⟨(stmt.step w s).1, (stmt.step w s).2.state, [(stmt.step w s).2.outcome], Flow.ret⟩ := by
  simp only [exec, h]

theorem exec_counts {W : Type} (stmts : List (Stmt W)) (w : W) (s : ctester_test_case_state_t) :
    (exec stmts w s).state.warning
      = s.warning + ((exec stmts w s).trace.count Outcome.warned : Nat)
          + ((exec stmts w s).trace.count Outcome.added : Nat)
    ∧ (Outcome.aborted ∉ (exec stmts w s).trace → (exec stmts w s).state.failed = s.failed) := by
  induction stmts generalizing w s with
  | nil => simp [exec]
  | cons stmt rest ih =>
    rcases step_effect stmt w s with h | h | h | h
    · obtain ⟨ho, hs, hf⟩ := h
      rw [exec_cons_next stmt rest w s hf]
      obtain ⟨i1, i2⟩ := ih (stmt.step w s).1 (stmt.step w s).2.state
      rw [hs] at i1 i2 ⊢
      rcases ho with ho | ho
      · rw [ho]
        refine ⟨?_, ?_⟩
        · simp only [List.count_cons]
          simp [i1]
        · intro hn
          exact i2 (fun hm => hn (List.mem_cons_of_mem _ hm))
      · rw [ho]
        refine ⟨?_, ?_⟩
        · simp only [List.count_cons]
          simp [i1]
        · intro hn
          exact i2 (fun hm => hn (List.mem_cons_of_mem _ hm))
    · obtain ⟨ho, hs, hf⟩ := h
      rw [exec_cons_next stmt rest w s hf]
      obtain ⟨i1, i2⟩ := ih (stmt.step w s).1 (stmt.step w s).2.state
      rw [hs] at i1 i2 ⊢
      rw [ho]
      refine ⟨?_, ?_⟩
      · simp only [List.count_cons]
        simp only [i1]
        simp
        omega
      · intro hn
        exact i2 (fun hm => hn (List.mem_cons_of_mem _ hm))
    · obtain ⟨ho, hs, hf⟩ := h
      rw [exec_cons_ret stmt rest w s hf, hs, ho]
      simp
    · obtain ⟨ho, hs, hf⟩ := h
      rw [exec_cons_ret stmt rest w s hf, ho]
      simp [hs]

theorem one_warning {W : Type} (stmts : List (Stmt W)) (w : W)
    (h1 : (exec stmts w ⟨0, 0⟩).trace.count Outcome.warned
      + (exec stmts w ⟨0, 0⟩).trace.count Outcome.added = 1)
    (h3 : Outcome.aborted ∉ (exec stmts w ⟨0, 0⟩).trace) :
    (exec stmts w ⟨0, 0⟩).state = ⟨0, 1⟩ := by
  obtain ⟨e1, e2⟩ := exec_counts stmts w ⟨0, 0⟩
  have e3 := e2 h3
  cases hst : (exec stmts w ⟨0, 0⟩).state with
  | mk failed warning =>
    rw [hst] at e1 e3
    simp only at e1 e3
    subst e3
    have : warning = 1 := by omega
    rw [this]

/-- C7. The run loop classifies a test it called as failed exactly when the body
left `state.failed` non-zero and as succeeded exactly when it left it 0, whatever
`state.warning` is; `failed_tests` and `passed_tests` count the calls of the two
kinds (as `unsigned` values). A body that runs exactly one soft failure (a
failing `EXPECT_` check, or `ADD_FAILURE`) and no failing `ASSERT_` check or
`FAIL` ends with `warning == 1` and `failed == 0`; a scheduled test with such a
body is called once, leaves this state, is in state succeeded after the run and
so is counted in `passed_tests`, not in `failed_tests`. -/
theorem classification_by_failed {W : Type}
    (call : Nat → W → ctester_test_case_state_t → W × ctester_test_case_state_t)
    (registry : List ctester_test_case_list_t) (sel : Selection) (world : W) :
    (∀ inv ∈ (run_loop call registry sel world).invoked,
      ((run_loop call registry sel world).state inv.position = _CTESTER_STATE_FAILED
        ↔ inv.left.failed ≠ 0)
      ∧ ((run_loop call registry sel world).state inv.position = _CTESTER_STATE_SUCCEEDED
        ↔ inv.left.failed = 0))
    ∧ (run_loop call registry sel world).failed_tests
      = ((run_loop call registry sel world).invoked.countP
            (fun inv => decide (inv.left.failed ≠ 0))) % 2 ^ 32
    ∧ (run_loop call registry sel world).passed_tests
      = ((run_loop call registry sel world).invoked.countP
            (fun inv => decide (inv.left.failed = 0))) % 2 ^ 32
    ∧ (∀ (stmts : List (Stmt W)) (w : W),
        (exec stmts w ⟨0, 0⟩).trace.count Outcome.warned
          + (exec stmts w ⟨0, 0⟩).trace.count Outcome.added = 1 →
        Outcome.aborted ∉ (exec stmts w ⟨0, 0⟩).trace →
        (exec stmts w ⟨0, 0⟩).state.warning = 1 ∧ (exec stmts w ⟨0, 0⟩).state.failed = 0)
    ∧ (∀ (i : Nat) (d : ctester_test_case_list_t) (stmts : List (Stmt W)),
        registry[i]? = some d → sel.state i = _CTESTER_STATE_SCHEDULED →
        call d.test_body = body stmts →
        (∀ w, (exec stmts w ⟨0, 0⟩).trace.count Outcome.warned
            + (exec stmts w ⟨0, 0⟩).trace.count Outcome.added = 1
          ∧ Outcome.aborted ∉ (exec stmts w ⟨0, 0⟩).trace) →
        (run_loop call registry sel world).state i = _CTESTER_STATE_SUCCEEDED
        ∧ ((run_loop call registry sel world).invoked.filter
            (fun inv => decide (inv.position = i))).map (fun inv => inv.left) = [⟨0, 1⟩]) := by
  obtain ⟨h1, h2, h3, h4⟩ := run_loop_spec call registry sel world
  refine ⟨?_, h4, h3, ?_, ?_⟩
  · intro inv hinv
    obtain ⟨_, _, g3, _⟩ := h2 inv hinv
    rw [g3]
    by_cases hf : inv.left.failed = 0
    · simp [hf, _CTESTER_STATE_SUCCEEDED, _CTESTER_STATE_FAILED]
    · simp [hf, _CTESTER_STATE_SUCCEEDED, _CTESTER_STATE_FAILED]
  · intro stmts w c1 c3
    rw [one_warning stmts w c1 c3]
    exact ⟨rfl, rfl⟩
  · intro i d stmts hi hsched hbody htrace
    have hlt : i < registry.length := (List.getElem?_eq_some.1 hi).1
    have hleft : ∀ inv ∈ (run_loop call registry sel world).invoked, inv.position = i →
        inv.left = ⟨0, 1⟩ := by
      intro inv hinv hpos
      obtain ⟨g1, _, _, d', w, g4, g5⟩ := h2 inv hinv
      rw [hpos, hi] at g4
      have hd : d = d' := Option.some.inj g4
      subst hd
      rw [g5, g1, hbody]
      obtain ⟨c1, c3⟩ := htrace w
      exact one_warning stmts w c1 c3
    have hmem : i ∈ (run_loop call registry sel world).invoked.map (fun inv => inv.position) := by
      rw [h1, List.mem_filter]
      exact ⟨List.mem_range.2 hlt, by simpa using hsched⟩
    obtain ⟨inv0, hinv0, hpos0⟩ := List.mem_map.1 hmem
    refine ⟨?_, ?_⟩
    · obtain ⟨_, _, g3, _⟩ := h2 inv0 hinv0
      rw [hpos0] at g3
      rw [g3, hleft inv0 hinv0 hpos0]
      rfl
    · have hnodup : ((run_loop call registry sel world).invoked.map
          (fun inv => inv.position)).Nodup := by
        rw [h1]
        exact (List.nodup_range registry.length).filter _
      have hcount : ((run_loop call registry sel world).invoked.filter
          (fun inv => decide (inv.position = i))).length = 1 := by
        have hc := List.count_eq_one_of_mem hnodup hmem
        rw [List.count_eq_countP, List.countP_map, List.countP_eq_length_filter] at hc
        rw [← hc]
        congr 1
      have hall : ∀ x ∈ ((run_loop call registry sel world).invoked.filter
          (fun inv => decide (inv.position = i))).map (fun inv => inv.left),
          x = (⟨0, 1⟩ : ctester_test_case_state_t) := by
        intro x hx
        obtain ⟨inv, hinv, rfl⟩ := List.mem_map.1 hx
        obtain ⟨hin, hp⟩ := List.mem_filter.1 hinv
        exact hleft inv hin (by simpa using hp)
      have hlen : (((run_loop call registry sel world).invoked.filter
          (fun inv => decide (inv.position = i))).map (fun inv => inv.left)).length = 1 := by
        rw [List.length_map, hcount]
      rw [List.eq_replicate_of_mem hall, hlen]
      rfl

theorem classification_by_failed_witness :
    (run_loop (fun _ => body [EXPECT_EQ (fun _ : Unit => 1) (fun _ => 2)])
        [TEST "A".toList "y".toList 0]
        (select_loop fnmatch_glob [TEST "A".toList "y".toList 0] "*".toList) ()).state 0
      = _CTESTER_STATE_SUCCEEDED
    ∧ ((run_loop (fun _ => body [EXPECT_EQ (fun _ : Unit => 1) (fun _ => 2)])
        [TEST "A".toList "y".toList 0]
        (select_loop fnmatch_glob [TEST "A".toList "y".toList 0] "*".toList) ()).invoked.filter
          (fun inv => decide (inv.position = 0))).map (fun inv => inv.left) = [⟨0, 1⟩] :=
  (classification_by_failed (fun _ => body [EXPECT_EQ (fun _ : Unit => 1) (fun _ => 2)])
      [TEST "A".toList "y".toList 0]
      (select_loop fnmatch_glob [TEST "A".toList "y".toList 0] "*".toList) ()).2.2.2.2
    0 (TEST "A".toList "y".toList 0) [EXPECT_EQ (fun _ : Unit => 1) (fun _ => 2)]
    rfl (by decide) rfl (fun w => by cases w; decide)

/-! ## The return value of `main` -/

theorem main_tests_code {W : Type} (fnmatch : List Char → List Char → Int)
    (call : Nat → W → ctester_test_case_state_t → W × ctester_test_case_state_t)
    (registry : List ctester_test_case_list_t) (pattern : List Char) (world : W) :
    (main_tests fnmatch call registry pattern world).code
      = if (run_loop call registry (select_loop fnmatch registry pattern) world).failed_tests ≠ 0
        then 1 else 0 := by
  simp only [main_tests]
  split_ifs <;> rfl

theorem failed_tests_eq {W : Type}
    (call : Nat → W → ctester_test_case_state_t → W × ctester_test_case_state_t)
    (registry : List ctester_test_case_list_t) (sel : Selection) (world : W)
    (hsize : registry.length < 2 ^ 32) :
    (run_loop call registry sel world).failed_tests
      = (run_loop call registry sel world).invoked.countP
          (fun inv => decide (inv.left.failed ≠ 0)) := by
  obtain ⟨h1, _, _, h4⟩ := run_loop_spec call registry sel world
  have hlen : (run_loop call registry sel world).invoked.length ≤ registry.length := by
    have := congrArg List.length h1
    rw [List.length_map] at this
    rw [this]
    exact (List.length_filter_le _ _).trans (by simp)
  have hc := List.countP_le_length (fun inv : Invocation => decide (inv.left.failed ≠ 0))
    (l := (run_loop call registry sel world).invoked)
  rw [h4]
  apply Nat.mod_eq_of_lt
  omega

/-- C8. For a registry of fewer than 2^32 descriptors, the value that `main`
returns after a run is 1 if and only if a test it called left `state.failed`
non-zero, that is, is in state failed, and it is 0 otherwise: 0 if and only if
every called test left `failed == 0` (whatever its warnings and whatever the
number of disabled tests), and 0 when no test is scheduled. A command line of
`-t` options only leads to this run, with the last pattern (or `*`). -/
theorem main_return_value {W : Type} (fnmatch : List Char → List Char → Int)
    (call : Nat → W → ctester_test_case_state_t → W × ctester_test_case_state_t)
    (registry : List ctester_test_case_list_t) (pattern : List Char) (world : W)
    (hsize : registry.length < 2 ^ 32) :
    ((main_tests fnmatch call registry pattern world).code = 1
      ↔ ∃ inv ∈ (run_loop call registry (select_loop fnmatch registry pattern) world).invoked,
          inv.left.failed ≠ 0)
    ∧ ((main_tests fnmatch call registry pattern world).code = 1
      ↔ ∃ inv ∈ (run_loop call registry (select_loop fnmatch registry pattern) world).invoked,
          (run_loop call registry (select_loop fnmatch registry pattern) world).state inv.position
            = _CTESTER_STATE_FAILED)
    ∧ ((main_tests fnmatch call registry pattern world).code = 0
      ↔ ∀ inv ∈ (run_loop call registry (select_loop fnmatch registry pattern) world).invoked,
          inv.left.failed = 0)
    ∧ ((main_tests fnmatch call registry pattern world).code = 0
      ∨ (main_tests fnmatch call registry pattern world).code = 1)
    ∧ ((∀ j, j < registry.length →
          (select_loop fnmatch registry pattern).state j ≠ _CTESTER_STATE_SCHEDULED) →
        (main_tests fnmatch call registry pattern world).code = 0)
    ∧ ∀ patterns : List (List Char),
        main fnmatch call registry (patterns.map Opt.t) world
          = main_tests fnmatch call registry
              (("*".toList :: patterns).getLast (List.cons_ne_nil _ _)) world := by
  obtain ⟨h1, h2, _, _⟩ :=
    run_loop_spec call registry (select_loop fnmatch registry pattern) world
  have hf := failed_tests_eq call registry (select_loop fnmatch registry pattern) world hsize
  have hcode := main_tests_code fnmatch call registry pattern world
  have hpos : (run_loop call registry (select_loop fnmatch registry pattern) world).failed_tests ≠ 0
      ↔ ∃ inv ∈ (run_loop call registry (select_loop fnmatch registry pattern) world).invoked,
          inv.left.failed ≠ 0 := by
    rw [hf, Nat.ne_zero_iff_zero_lt, List.countP_pos_iff]
    simp
  have hone : (main_tests fnmatch call registry pattern world).code = 1
      ↔ ∃ inv ∈ (run_loop call registry (select_loop fnmatch registry pattern) world).invoked,
          inv.left.failed ≠ 0 := by
    rw [hcode, ← hpos]
    split_ifs with h
    · simp [h]
    · simp [h]
  have hzero : (main_tests fnmatch call registry pattern world).code = 0
      ↔ ∀ inv ∈ (run_loop call registry (select_loop fnmatch registry pattern) world).invoked,
          inv.left.failed = 0 := by
    have hnot : (∀ inv ∈ (run_loop call registry (select_loop fnmatch registry pattern)
          world).invoked, inv.left.failed = 0)
        ↔ ¬ ∃ inv ∈ (run_loop call registry (select_loop fnmatch registry pattern)
          world).invoked, inv.left.failed ≠ 0 := by
      simp
    rw [hnot, ← hpos, hcode]
    split_ifs with h
    · simp [h]
    · simp [h]
  refine ⟨hone, ?_, hzero, ?_, ?_, ?_⟩
  · rw [hone]
    constructor
    · rintro ⟨inv, hinv, hne⟩
      refine ⟨inv, hinv, ?_⟩
      rw [(h2 inv hinv).2.2.1, if_neg hne]
    · rintro ⟨inv, hinv, hst⟩
      refine ⟨inv, hinv, ?_⟩
      intro h0
      rw [(h2 inv hinv).2.2.1, if_pos h0] at hst
      revert hst
      decide
  · rw [hcode]
    split_ifs
    · exact Or.inr rfl
    · exact Or.inl rfl
  · intro hnone
    rw [hzero]
    intro inv hinv
    have hmem : inv.position ∈ (run_loop call registry (select_loop fnmatch registry pattern)
        world).invoked.map (fun inv => inv.position) := List.mem_map_of_mem _ hinv
    rw [h1, List.mem_filter] at hmem
    exact absurd (by simpa using hmem.2) (hnone inv.position (List.mem_range.1 hmem.1))
  · intro patterns
    simp only [main, main_options_run]

theorem main_return_value_witness :
    (main_tests fnmatch_glob
        (fun p => if p = 0 then body [Stmt.FAIL 7] else body [EXPECT_EQ (fun _ : Unit => 1)
          (fun _ => 2)])
        [TEST "A".toList "x".toList 0, TEST "A".toList "y".toList 1] "*".toList ()).code = 1 :=
  (main_return_value fnmatch_glob
      (fun p => if p = 0 then body [Stmt.FAIL 7] else body [EXPECT_EQ (fun _ : Unit => 1)
        (fun _ => 2)])
      [TEST "A".toList "x".toList 0, TEST "A".toList "y".toList 1] "*".toList ()
      (by decide)).1.2
    ⟨⟨0, ⟨0, 0⟩, ⟨7, 0⟩⟩, by decide, by decide⟩

/-! ## The strict checks and `ADD_FAILURE` -/

theorem exec_append_next {W : Type} (pre post : List (Stmt W)) (w : W)
    (s : ctester_test_case_state_t) (h : (exec pre w s).flow = Flow.next) :
    exec (pre ++ post) w s
      = ⟨(exec post (exec pre w s).world (exec pre w s).state).world,
         (exec post (exec pre w s).world (exec pre w s).state).state,
         (exec pre w s).trace ++ (exec post (exec pre w s).world (exec pre w s).state).trace,
         (exec post (exec pre w s).world (exec pre w s).state).flow⟩ := by
  induction pre generalizing w s with
  | nil => simp [exec]
  | cons stmt pre ih =>
    cases hf : (stmt.step w s).2.flow with
    | ret =>
      rw [exec_cons_ret stmt pre w s hf] at h
      cases h
    | next =>
      rw [exec_cons_next stmt pre w s hf] at h
      simp only at h
      rw [List.cons_append, exec_cons_next stmt (pre ++ post) w s hf,
        ih (stmt.step w s).1 (stmt.step w s).2.state h, exec_cons_next stmt pre w s hf]
      simp

theorem exec_reached_ret {W : Type} (pre rest : List (Stmt W)) (stmt : Stmt W) (w : W)
    (s : ctester_test_case_state_t) (h : (exec pre w s).flow = Flow.next)
    (hf : (stmt.step (exec pre w s).world (exec pre w s).state).2.flow = Flow.ret) :
    exec (pre ++ stmt :: rest) w s
      = ⟨(stmt.step (exec pre w s).world (exec pre w s).state).1,
         (stmt.step (exec pre w s).world (exec pre w s).state).2.state,
         (exec pre w s).trace ++ [(stmt.step (exec pre w s).world (exec pre w s).state).2.outcome],
         Flow.ret⟩ := by
  rw [exec_append_next pre (stmt :: rest) w s h, exec_cons_ret stmt rest _ _ hf]

theorem exec_reached_next {W : Type} (pre rest : List (Stmt W)) (stmt : Stmt W) (w : W)
    (s : ctester_test_case_state_t) (h : (exec pre w s).flow = Flow.next)
    (hf : (stmt.step (exec pre w s).world (exec pre w s).state).2.flow = Flow.next) :
    exec (pre ++ stmt :: rest) w s
      = ⟨(exec rest (stmt.step (exec pre w s).world (exec pre w s).state).1
            (stmt.step (exec pre w s).world (exec pre w s).state).2.state).world,
         (exec rest (stmt.step (exec pre w s).world (exec pre w s).state).1
            (stmt.step (exec pre w s).world (exec pre w s).state).2.state).state,
         (exec pre w s).trace
           ++ (stmt.step (exec pre w s).world (exec pre w s).state).2.outcome
             :: (exec rest (stmt.step (exec pre w s).world (exec pre w s).state).1
                  (stmt.step (exec pre w s).world (exec pre w s).state).2.state).trace,
         (exec rest (stmt.step (exec pre w s).world (exec pre w s).state).1
            (stmt.step (exec pre w s).world (exec pre w s).state).2.state).flow⟩ := by
  rw [exec_append_next pre (stmt :: rest) w s h, exec_cons_next stmt rest _ _ hf]

/-- The macro `ADD_FAILURE` in a body: `ADD_FAILURE()`, once reached, adds
one to `warning`, leaves `failed` and the program state as they were, and then
returns from the body, so that the statements after it do not run. -/
theorem ADD_FAILURE_returns {W : Type} (pre rest : List (Stmt W)) (w : W)
    (s : ctester_test_case_state_t) (hreach : (exec pre w s).flow = Flow.next) :
    exec (pre ++ Stmt.ADD_FAILURE :: rest) w s
      = ⟨(exec pre w s).world,
         { (exec pre w s).state with warning := (exec pre w s).state.warning + 1 },
         (exec pre w s).trace ++ [Outcome.added], Flow.ret⟩ := by
  rw [exec_reached_ret pre rest _ w s hreach (by simp [Stmt.step])]
  simp [Stmt.step]

/-- C10. The body `ADD_FAILURE(); sentinel = 1; EXPECT_EQ(1, 2);` run with
`sentinel == 0`: the body returns from `ADD_FAILURE` with `warning == 1`; the
assignment and the second check do not run (the sentinel is still 0 and
`warning` is not 2). -/
theorem ADD_FAILURE_skips_rest :
    exec [Stmt.ADD_FAILURE, Stmt.other (fun _ : Nat => 1),
        EXPECT_EQ (fun _ => 1) (fun _ => 2)] 0 ⟨0, 0⟩
      = ⟨0, ⟨0, 1⟩, [Outcome.added], Flow.ret⟩ := by
  rfl

/-! ## The checks that run a statement in a child process -/

theorem exec_reached_step_ret {W : Type} (pre rest : List (Stmt W)) (stmt : Stmt W) (w : W)
    (s : ctester_test_case_state_t) (h : (exec pre w s).flow = Flow.next)
    (w2 : W) (s2 : ctester_test_case_state_t) (o : Outcome)
    (hstep : stmt.step (exec pre w s).world (exec pre w s).state = (w2, ⟨s2, o, Flow.ret⟩)) :
    exec (pre ++ stmt :: rest) w s = ⟨w2, s2, (exec pre w s).trace ++ [o], Flow.ret⟩ := by
  rw [exec_reached_ret pre rest stmt w s h (by rw [hstep]), hstep]

theorem exec_reached_step_next {W : Type} (pre rest : List (Stmt W)) (stmt : Stmt W) (w : W)
    (s : ctester_test_case_state_t) (h : (exec pre w s).flow = Flow.next)
    (w2 : W) (s2 : ctester_test_case_state_t) (o : Outcome)
    (hstep : stmt.step (exec pre w s).world (exec pre w s).state = (w2, ⟨s2, o, Flow.next⟩)) :
    exec (pre ++ stmt :: rest) w s
      = ⟨(exec rest w2 s2).world, (exec rest w2 s2).state,
         (exec pre w s).trace ++ o :: (exec rest w2 s2).trace, (exec rest w2 s2).flow⟩ := by
  rw [exec_reached_next pre rest stmt w s h (by rw [hstep]), hstep]

theorem status_cases (statement : Behaviour) (exit_code_on_failure : Int) :
    (∃ signal, _CTESTER_TEST_RUN_AS_CHILD statement exit_code_on_failure
        = Status.signaled signal)
    ∨ (∃ status, _CTESTER_TEST_RUN_AS_CHILD statement exit_code_on_failure
        = Status.exited status ∧ 0 ≤ status ∧ status < 256) := by
  cases statement with
  | crashes signal => exact Or.inl ⟨signal, rfl⟩
  | exits code =>
    refine Or.inr ⟨code % 256, rfl, ?_, ?_⟩
    · omega
    · omega
  | returns =>
    refine Or.inr ⟨exit_code_on_failure % 256, rfl, ?_, ?_⟩
    · omega
    · omega

theorem status_reached (fallback : Int) :
    (∀ signal, _CTESTER_TEST_RUN_AS_CHILD (Behaviour.crashes signal) fallback
        = Status.signaled signal)
    ∧ (∀ status : Int, 0 ≤ status → status < 256 →
        _CTESTER_TEST_RUN_AS_CHILD (Behaviour.exits status) fallback = Status.exited status) := by
  refine ⟨fun _ => rfl, ?_⟩
  intro status h0 h1
  simp only [_CTESTER_TEST_RUN_AS_CHILD]
  rw [Int.emod_eq_of_lt h0 h1]

/-- C11. The crash expectation. When control reaches `ASSERT_DEATH` or
`EXPECT_DEATH` in a body, the check is satisfied, that is, it leaves the state
unchanged and the body goes on, if and only if the status of the child says
that a signal ended it. For every other status (an exit with any code)
`ASSERT_DEATH` sets `failed` to the line, which is non-zero, and returns from
the body, while `EXPECT_DEATH` adds one to `warning` and the body goes on. A
statement that calls `exit(0)` gives the exit status 0, hence a failure. -/
theorem death_expectation {W : Type} (pre rest : List (Stmt W)) (w : W)
    (s : ctester_test_case_state_t) (statement : W → Behaviour) (line : Nat)
    (hreach : (exec pre w s).flow = Flow.next) (hline : 0 < line) :
    ((line : Int) ≠ 0)
    ∧ (∀ signal,
        _CTESTER_TEST_RUN_AS_CHILD (statement (exec pre w s).world) 0 = Status.signaled signal →
        exec (pre ++ Stmt.ASSERT_DEATH statement line :: rest) w s
          = ⟨(exec rest (exec pre w s).world (exec pre w s).state).world,
             (exec rest (exec pre w s).world (exec pre w s).state).state,
             (exec pre w s).trace
               ++ Outcome.held :: (exec rest (exec pre w s).world (exec pre w s).state).trace,
             (exec rest (exec pre w s).world (exec pre w s).state).flow⟩
        ∧ exec (pre ++ Stmt.EXPECT_DEATH statement :: rest) w s
          = ⟨(exec rest (exec pre w s).world (exec pre w s).state).world,
             (exec rest (exec pre w s).world (exec pre w s).state).state,
             (exec pre w s).trace
               ++ Outcome.held :: (exec rest (exec pre w s).world (exec pre w s).state).trace,
             (exec rest (exec pre w s).world (exec pre w s).state).flow⟩)
    ∧ (∀ status,
        _CTESTER_TEST_RUN_AS_CHILD (statement (exec pre w s).world) 0 = Status.exited status →
        exec (pre ++ Stmt.ASSERT_DEATH statement line :: rest) w s
          = ⟨(exec pre w s).world, { (exec pre w s).state with failed := (line : Int) },
             (exec pre w s).trace ++ [Outcome.aborted], Flow.ret⟩
        ∧ exec (pre ++ Stmt.EXPECT_DEATH statement :: rest) w s
          = ⟨(exec rest (exec pre w s).world
                { (exec pre w s).state with warning := (exec pre w s).state.warning + 1 }).world,
             (exec rest (exec pre w s).world
                { (exec pre w s).state with warning := (exec pre w s).state.warning + 1 }).state,
             (exec pre w s).trace
               ++ Outcome.warned :: (exec rest (exec pre w s).world
                { (exec pre w s).state with warning := (exec pre w s).state.warning + 1 }).trace,
             (exec rest (exec pre w s).world
                { (exec pre w s).state with warning := (exec pre w s).state.warning + 1 }).flow⟩)
    ∧ ((((Stmt.ASSERT_DEATH statement line).step (exec pre w s).world (exec pre w s).state).2
          = ⟨(exec pre w s).state, Outcome.held, Flow.next⟩)
        ↔ ∃ signal, _CTESTER_TEST_RUN_AS_CHILD (statement (exec pre w s).world) 0
            = Status.signaled signal)
    ∧ ((((Stmt.EXPECT_DEATH statement).step (exec pre w s).world (exec pre w s).state).2
          = ⟨(exec pre w s).state, Outcome.held, Flow.next⟩)
        ↔ ∃ signal, _CTESTER_TEST_RUN_AS_CHILD (statement (exec pre w s).world) 0
            = Status.signaled signal)
    ∧ (statement (exec pre w s).world = Behaviour.exits 0 →
        _CTESTER_TEST_RUN_AS_CHILD (statement (exec pre w s).world) 0 = Status.exited 0) := by
  refine ⟨by omega, ?_, ?_, ?_, ?_, ?_⟩
  · intro signal hs
    constructor
    · exact exec_reached_step_next pre rest _ w s hreach _ _ _
        (by simp [Stmt.step, _CTESTER_TEST_DEATH, hs])
    · exact exec_reached_step_next pre rest _ w s hreach _ _ _
        (by simp [Stmt.step, _CTESTER_TEST_DEATH, hs])
  · intro status hs
    constructor
    · exact exec_reached_step_ret pre rest _ w s hreach _ _ _
        (by simp [Stmt.step, _CTESTER_TEST_DEATH, hs, assert_failed])
    · exact exec_reached_step_next pre rest _ w s hreach _ _ _
        (by simp [Stmt.step, _CTESTER_TEST_DEATH, hs, expect_failed])
  · rcases status_cases (statement (exec pre w s).world) 0 with ⟨signal, hs⟩ | ⟨status, hs, _, _⟩
    · simp [Stmt.step, _CTESTER_TEST_DEATH, hs]
    · simp [Stmt.step, _CTESTER_TEST_DEATH, hs, assert_failed]
  · rcases status_cases (statement (exec pre w s).world) 0 with ⟨signal, hs⟩ | ⟨status, hs, _, _⟩
    · simp [Stmt.step, _CTESTER_TEST_DEATH, hs]
    · simp [Stmt.step, _CTESTER_TEST_DEATH, hs, expect_failed]
  · intro hb
    rw [hb]
    rfl

theorem death_expectation_witness :
    exec ([Stmt.ASSERT_DEATH (fun _ : Unit => Behaviour.crashes 11) 191]
        ++ Stmt.EXPECT_DEATH (fun _ => Behaviour.exits 0) :: []) () ⟨0, 0⟩
      = ⟨(), ⟨0, 1⟩, [Outcome.held, Outcome.warned], Flow.next⟩ :=
  ((death_expectation [Stmt.ASSERT_DEATH (fun _ : Unit => Behaviour.crashes 11) 191] []
      () ⟨0, 0⟩ (fun _ => Behaviour.exits 0) 192 rfl (by decide)).2.2.1 0 rfl).2

/-! ## The exit-code expectation -/

/-! The parser reads a token in every step or follows a step that did, so its
result is the same for every fuel above the length of the text. -/

theorem parse_from_length (fuel : Nat) : ∀ (g : Goal) (toks : List Tok) (e : Expr) (rest : List Tok),
    parse_from fuel g toks = some (e, rest) →
    match g with
    | Goal.operand _ => rest.length < toks.length
    | Goal.operators _ _ => rest.length ≤ toks.length := by
  induction fuel with
  | zero => intro g toks e rest h; simp [parse_from] at h
  | succ fuel ih =>
    intro g toks e rest h
    cases g with
    | operand p =>
      simp only
      cases toks with
      | nil => simp [parse_from] at h
      | cons t ts =>
        cases t with
        | primary v =>
          simp only [parse_from] at h
          have := ih _ _ _ _ h
          simp only at this
          simp only [List.length_cons]; omega
        | bang =>
          simp only [parse_from] at h
          cases h1 : parse_from fuel (Goal.operand 11) ts with
          | none => simp [h1] at h
          | some r =>
            obtain ⟨e1, r1⟩ := r
            simp only [h1] at h
            have a := ih _ _ _ _ h1
            have b := ih _ _ _ _ h
            simp only at a b
            simp only [List.length_cons]; omega
        | tilde =>
          simp only [parse_from] at h
          cases h1 : parse_from fuel (Goal.operand 11) ts with
          | none => simp [h1] at h
          | some r =>
            obtain ⟨e1, r1⟩ := r
            simp only [h1] at h
            have a := ih _ _ _ _ h1
            have b := ih _ _ _ _ h
            simp only at a b
            simp only [List.length_cons]; omega
        | op o =>
          cases o <;> simp only [parse_from] at h <;> try (exact absurd h (by simp))
          all_goals
            cases h1 : parse_from fuel (Goal.operand 11) ts with
            | none => simp [h1] at h
            | some r =>
              obtain ⟨e1, r1⟩ := r
              simp only [h1] at h
              have a := ih _ _ _ _ h1
              have b := ih _ _ _ _ h
              simp only at a b
              simp only [List.length_cons]; omega
        | question => simp [parse_from] at h
        | colon => simp [parse_from] at h
    | operators p left =>
      simp only
      cases toks with
      | nil =>
        simp only [parse_from] at h
        cases h; simp
      | cons t ts =>
        cases t with
        | primary v => simp only [parse_from] at h; cases h; simp
        | bang => simp only [parse_from] at h; cases h; simp
        | tilde => simp only [parse_from] at h; cases h; simp
        | colon => simp only [parse_from] at h; cases h; simp
        | op o =>
          simp only [parse_from] at h
          split_ifs at h with hp
          · cases h1 : parse_from fuel (Goal.operand (o.prec + 1)) ts with
            | none => simp [h1] at h
            | some r =>
              obtain ⟨e1, r1⟩ := r
              simp only [h1] at h
              have a := ih _ _ _ _ h1
              have b := ih _ _ _ _ h
              simp only at a b
              simp only [List.length_cons]; omega
          · cases h; simp
        | question =>
          simp only [parse_from] at h
          split_ifs at h with hp
          · cases h1 : parse_from fuel (Goal.operand 0) ts with
            | none => simp [h1] at h
            | some r =>
              obtain ⟨e1, r1⟩ := r
              cases r1 with
              | nil => simp [h1] at h
              | cons t2 r2 =>
                cases t2 <;> simp only [h1] at h <;> try (exact absurd h (by simp))
                cases h2 : parse_from fuel (Goal.operand 0) r2 with
                | none => simp [h2] at h
                | some r3 =>
                  obtain ⟨e3, r4⟩ := r3
                  simp only [h2, Option.some.injEq, Prod.mk.injEq] at h
                  have a := ih _ _ _ _ h1
                  have b := ih _ _ _ _ h2
                  simp only [List.length_cons] at a b
                  obtain ⟨_, rfl⟩ := h
                  simp only [List.length_cons]; omega
          · cases h; simp

theorem parse_from_succ (fuel : Nat) : ∀ (g : Goal) (toks : List Tok), toks.length < fuel →
    parse_from (fuel + 1) g toks = parse_from fuel g toks := by
  induction fuel with
  | zero => intro g toks h; omega
  | succ f ih =>
    intro g toks h
    have unary : ∀ (ts : List Tok) (p : Nat) (c : Expr → Expr), ts.length < f →
        (match parse_from (f + 1) (Goal.operand 11) ts with
          | some (e, rest2) => parse_from (f + 1) (Goal.operators p (c e)) rest2
          | none => none)
        = (match parse_from f (Goal.operand 11) ts with
          | some (e, rest2) => parse_from f (Goal.operators p (c e)) rest2
          | none => none) := by
      intro ts p c hts
      rw [ih _ _ hts]
      cases h1 : parse_from f (Goal.operand 11) ts with
      | none => rfl
      | some r =>
        obtain ⟨e1, r1⟩ := r
        have a := parse_from_length _ _ _ _ _ h1
        simp only at a
        exact ih _ _ (by omega)
    cases g with
    | operand p =>
      cases toks with
      | nil => rfl
      | cons t ts =>
        have hts : ts.length < f := by simpa using h
        cases t with
        | primary v => exact ih _ _ hts
        | bang => exact unary ts p Expr.not hts
        | tilde => exact unary ts p Expr.compl hts
        | op o =>
          cases o
          case sub => exact unary ts p Expr.minus hts
          case add => exact unary ts p Expr.plus hts
          all_goals rfl
        | question => rfl
        | colon => rfl
    | operators p left =>
      cases toks with
      | nil => rfl
      | cons t ts =>
        have hts : ts.length < f := by simpa using h
        cases t with
        | primary v => rfl
        | bang => rfl
        | tilde => rfl
        | colon => rfl
        | op o =>
          show (if p ≤ o.prec then
              match parse_from (f + 1) (Goal.operand (o.prec + 1)) ts with
              | some (right, rest2) =>
                  parse_from (f + 1) (Goal.operators p (Expr.bin o left right)) rest2
              | none => none
            else some (left, Tok.op o :: ts))
            = (if p ≤ o.prec then
              match parse_from f (Goal.operand (o.prec + 1)) ts with
              | some (right, rest2) =>
                  parse_from f (Goal.operators p (Expr.bin o left right)) rest2
              | none => none
            else some (left, Tok.op o :: ts))
          split_ifs with hp
          · rw [ih _ _ hts]
            cases h1 : parse_from f (Goal.operand (o.prec + 1)) ts with
            | none => rfl
            | some r =>
              obtain ⟨e1, r1⟩ := r
              have a := parse_from_length _ _ _ _ _ h1
              simp only at a
              exact ih _ _ (by omega)
          · rfl
        | question =>
          show (if p = 0 then
              match parse_from (f + 1) (Goal.operand 0) ts with
              | some (t, Tok.colon :: rest2) =>
                  match parse_from (f + 1) (Goal.operand 0) rest2 with
                  | some (f, rest3) => some (Expr.cond left t f, rest3)
                  | none => none
              | _ => none
            else some (left, Tok.question :: ts))
            = (if p = 0 then
              match parse_from f (Goal.operand 0) ts with
              | some (t, Tok.colon :: rest2) =>
                  match parse_from f (Goal.operand 0) rest2 with
                  | some (f, rest3) => some (Expr.cond left t f, rest3)
                  | none => none
              | _ => none
            else some (left, Tok.question :: ts))
          split_ifs with hp
          · rw [ih _ _ hts]
            cases h1 : parse_from f (Goal.operand 0) ts with
            | none => rfl
            | some r =>
              obtain ⟨e1, r1⟩ := r
              have a := parse_from_length _ _ _ _ _ h1
              simp only at a
              cases r1 with
              | nil => rfl
              | cons t2 r2 =>
                cases t2 with
                | colon =>
                  simp only [List.length_cons] at a
                  show (match parse_from (f + 1) (Goal.operand 0) r2 with
                    | some (f, rest3) => some (Expr.cond left e1 f, rest3)
                    | none => none)
                    = (match parse_from f (Goal.operand 0) r2 with
                    | some (f, rest3) => some (Expr.cond left e1 f, rest3)
                    | none => none)
                  rw [ih _ _ (by omega)]
                | primary v => rfl
                | bang => rfl
                | tilde => rfl
                | op o => rfl
                | question => rfl
          · rfl

theorem parse_from_enough (toks : List Tok) (g : Goal) (fuel : Nat) (h : toks.length < fuel) :
    ∀ more, parse_from (fuel + more) g toks = parse_from fuel g toks := by
  intro more
  induction more with
  | zero => rfl
  | succ n ih =>
    rw [← Nat.add_assoc, parse_from_succ _ _ _ (by omega), ih]

theorem parse_fuel (toks : List Tok) (fuel : Nat) (h : toks.length < fuel) :
    parse_from fuel (Goal.operand 0) toks
      = parse_from (2 * toks.length + 2) (Goal.operand 0) toks := by
  have h1 := parse_from_enough toks (Goal.operand 0) (toks.length + 1) (by omega)
  have a := h1 (fuel - (toks.length + 1))
  have b := h1 (toks.length + 1)
  rw [show toks.length + 1 + (fuel - (toks.length + 1)) = fuel by omega] at a
  rw [show toks.length + 1 + (toks.length + 1) = 2 * toks.length + 2 by omega] at b
  rw [a, b]

theorem value_primary (v : Int) : value [Tok.primary v] = v := rfl

theorem value_not_primary (v : Int) :
    value (Tok.bang :: [Tok.primary v]) = if v = 0 then 1 else 0 := by
  simp [value, parse, parse_from, Expr.eval, truth]

theorem value_ne_primary (status v : Int) :
    value (Tok.primary status :: Tok.op Op.ne :: [Tok.primary v])
      = if status ≠ v then 1 else 0 := by
  simp [value, parse, parse_from, Expr.eval, truth, Op.prec, Op.apply]

theorem ne_primary_ne_zero (status v : Int) :
    value (Tok.primary status :: Tok.op Op.ne :: [Tok.primary v]) ≠ 0 ↔ status ≠ v := by
  rw [value_ne_primary]
  split_ifs with h <;> simp [h]

/-- The exit-code expectation for an argument that is a primary expression (a
constant, an identifier or an expression in parentheses) of value `exit_code`.
When control reaches `ASSERT_EXIT` or `EXPECT_EXIT`, the check is satisfied,
that is, it leaves the state unchanged and the body goes on, if and only if the
status of the child is an exit with exactly this code. When a signal ended the
child, or when it exited with another code, `ASSERT_EXIT` sets `failed` to the
line, which is non-zero, and returns from the body, while `EXPECT_EXIT` adds one
to `warning` and the body goes on. -/
theorem exit_expectation_of_primary {W : Type} (pre rest : List (Stmt W)) (w : W)
    (s : ctester_test_case_state_t) (statement : W → Behaviour) (exit_code : Int) (line : Nat)
    (hreach : (exec pre w s).flow = Flow.next) (hline : 0 < line) :
    ((line : Int) ≠ 0)
    ∧ (_CTESTER_TEST_RUN_AS_CHILD (statement (exec pre w s).world)
          (if exit_code = 0 then 1 else 0) = Status.exited exit_code →
        exec (pre ++ Stmt.ASSERT_EXIT statement [Tok.primary exit_code] line :: rest) w s
          = ⟨(exec rest (exec pre w s).world (exec pre w s).state).world,
             (exec rest (exec pre w s).world (exec pre w s).state).state,
             (exec pre w s).trace
               ++ Outcome.held :: (exec rest (exec pre w s).world (exec pre w s).state).trace,
             (exec rest (exec pre w s).world (exec pre w s).state).flow⟩
        ∧ exec (pre ++ Stmt.EXPECT_EXIT statement [Tok.primary exit_code] :: rest) w s
          = ⟨(exec rest (exec pre w s).world (exec pre w s).state).world,
             (exec rest (exec pre w s).world (exec pre w s).state).state,
             (exec pre w s).trace
               ++ Outcome.held :: (exec rest (exec pre w s).world (exec pre w s).state).trace,
             (exec rest (exec pre w s).world (exec pre w s).state).flow⟩)
    ∧ (∀ signal, _CTESTER_TEST_RUN_AS_CHILD (statement (exec pre w s).world)
          (if exit_code = 0 then 1 else 0) = Status.signaled signal →
        exec (pre ++ Stmt.ASSERT_EXIT statement [Tok.primary exit_code] line :: rest) w s
          = ⟨(exec pre w s).world, { (exec pre w s).state with failed := (line : Int) },
             (exec pre w s).trace ++ [Outcome.aborted], Flow.ret⟩
        ∧ exec (pre ++ Stmt.EXPECT_EXIT statement [Tok.primary exit_code] :: rest) w s
          = ⟨(exec rest (exec pre w s).world
                { (exec pre w s).state with warning := (exec pre w s).state.warning + 1 }).world,
             (exec rest (exec pre w s).world
                { (exec pre w s).state with warning := (exec pre w s).state.warning + 1 }).state,
             (exec pre w s).trace
               ++ Outcome.warned :: (exec rest (exec pre w s).world
                { (exec pre w s).state with warning := (exec pre w s).state.warning + 1 }).trace,
             (exec rest (exec pre w s).world
                { (exec pre w s).state with warning := (exec pre w s).state.warning + 1 }).flow⟩)
    ∧ (∀ status, _CTESTER_TEST_RUN_AS_CHILD (statement (exec pre w s).world)
          (if exit_code = 0 then 1 else 0) = Status.exited status → status ≠ exit_code →
        exec (pre ++ Stmt.ASSERT_EXIT statement [Tok.primary exit_code] line :: rest) w s
          = ⟨(exec pre w s).world, { (exec pre w s).state with failed := (line : Int) },
             (exec pre w s).trace ++ [Outcome.aborted], Flow.ret⟩
        ∧ exec (pre ++ Stmt.EXPECT_EXIT statement [Tok.primary exit_code] :: rest) w s
          = ⟨(exec rest (exec pre w s).world
                { (exec pre w s).state with warning := (exec pre w s).state.warning + 1 }).world,
             (exec rest (exec pre w s).world
                { (exec pre w s).state with warning := (exec pre w s).state.warning + 1 }).state,
             (exec pre w s).trace
               ++ Outcome.warned :: (exec rest (exec pre w s).world
                { (exec pre w s).state with warning := (exec pre w s).state.warning + 1 }).trace,
             (exec rest (exec pre w s).world
                { (exec pre w s).state with warning := (exec pre w s).state.warning + 1 }).flow⟩)
    ∧ ((((Stmt.ASSERT_EXIT statement [Tok.primary exit_code] line).step (exec pre w s).world
            (exec pre w s).state).2 = ⟨(exec pre w s).state, Outcome.held, Flow.next⟩)
        ↔ _CTESTER_TEST_RUN_AS_CHILD (statement (exec pre w s).world)
          (if exit_code = 0 then 1 else 0) = Status.exited exit_code)
    ∧ ((((Stmt.EXPECT_EXIT statement [Tok.primary exit_code]).step (exec pre w s).world
            (exec pre w s).state).2 = ⟨(exec pre w s).state, Outcome.held, Flow.next⟩)
        ↔ _CTESTER_TEST_RUN_AS_CHILD (statement (exec pre w s).world)
          (if exit_code = 0 then 1 else 0) = Status.exited exit_code) := by
  refine ⟨by omega, ?_, ?_, ?_, ?_, ?_⟩
  · intro hs
    constructor
    · exact exec_reached_step_next pre rest _ w s hreach _ _ _
        (by simp [Stmt.step, _CTESTER_TEST_EXIT, value_not_primary, value_ne_primary, hs])
    · exact exec_reached_step_next pre rest _ w s hreach _ _ _
        (by simp [Stmt.step, _CTESTER_TEST_EXIT, value_not_primary, value_ne_primary, hs])
  · intro signal hs
    constructor
    · exact exec_reached_step_ret pre rest _ w s hreach _ _ _
        (by simp [Stmt.step, _CTESTER_TEST_EXIT, value_not_primary, value_ne_primary, hs, assert_failed])
    · exact exec_reached_step_next pre rest _ w s hreach _ _ _
        (by simp [Stmt.step, _CTESTER_TEST_EXIT, value_not_primary, value_ne_primary, hs, expect_failed])
  · intro status hs hne
    constructor
    · exact exec_reached_step_ret pre rest _ w s hreach _ _ _
        (by simp [Stmt.step, _CTESTER_TEST_EXIT, value_not_primary, value_ne_primary, hs, hne, assert_failed])
    · exact exec_reached_step_next pre rest _ w s hreach _ _ _
        (by simp [Stmt.step, _CTESTER_TEST_EXIT, value_not_primary, value_ne_primary, hs, hne, expect_failed])
  · rcases status_cases (statement (exec pre w s).world) (if exit_code = 0 then 1 else 0)
      with ⟨signal, hs⟩ | ⟨status, hs, _, _⟩
    · simp [Stmt.step, _CTESTER_TEST_EXIT, value_not_primary, value_ne_primary, hs, assert_failed]
    · by_cases hne : status = exit_code
      · simp [Stmt.step, _CTESTER_TEST_EXIT, value_not_primary, value_ne_primary, hs, hne]
      · simp [Stmt.step, _CTESTER_TEST_EXIT, value_not_primary, value_ne_primary, hs, hne, assert_failed]
  · rcases status_cases (statement (exec pre w s).world) (if exit_code = 0 then 1 else 0)
      with ⟨signal, hs⟩ | ⟨status, hs, _, _⟩
    · simp [Stmt.step, _CTESTER_TEST_EXIT, value_not_primary, value_ne_primary, hs, expect_failed]
    · by_cases hne : status = exit_code
      · simp [Stmt.step, _CTESTER_TEST_EXIT, value_not_primary, value_ne_primary, hs, hne]
      · simp [Stmt.step, _CTESTER_TEST_EXIT, value_not_primary, value_ne_primary, hs, hne, expect_failed]

/-- A statement that returns is not accepted by the exit-code expectation
when the argument is a primary expression (a constant, an identifier or an
expression in parentheses). For every value `exit_code` of it, when the
statement handed to `ASSERT_EXIT` or `EXPECT_EXIT` returns, the child exits with the fallback code
`!exit_code` (1 for the expected code 0, else 0), this code is not `exit_code`,
and the check fails: `ASSERT_EXIT` sets `failed` to the line, which is non-zero,
and returns from the body; `EXPECT_EXIT` adds one to `warning` and the body goes
on. -/
theorem returning_statement_fails_exit_of_primary {W : Type} (pre rest : List (Stmt W)) (w : W)
    (s : ctester_test_case_state_t) (statement : W → Behaviour) (exit_code : Int) (line : Nat)
    (hreach : (exec pre w s).flow = Flow.next) (hline : 0 < line)
    (hreturns : statement (exec pre w s).world = Behaviour.returns) :
    _CTESTER_TEST_RUN_AS_CHILD (statement (exec pre w s).world)
          (if exit_code = 0 then 1 else 0) = Status.exited (if exit_code = 0 then 1 else 0)
    ∧ (if exit_code = 0 then (1 : Int) else 0) ≠ exit_code
    ∧ ((line : Int) ≠ 0)
    ∧ exec (pre ++ Stmt.ASSERT_EXIT statement [Tok.primary exit_code] line :: rest) w s
          = ⟨(exec pre w s).world, { (exec pre w s).state with failed := (line : Int) },
             (exec pre w s).trace ++ [Outcome.aborted], Flow.ret⟩
    ∧ exec (pre ++ Stmt.EXPECT_EXIT statement [Tok.primary exit_code] :: rest) w s
          = ⟨(exec rest (exec pre w s).world
                { (exec pre w s).state with warning := (exec pre w s).state.warning + 1 }).world,
             (exec rest (exec pre w s).world
                { (exec pre w s).state with warning := (exec pre w s).state.warning + 1 }).state,
             (exec pre w s).trace
               ++ Outcome.warned :: (exec rest (exec pre w s).world
                { (exec pre w s).state with warning := (exec pre w s).state.warning + 1 }).trace,
             (exec rest (exec pre w s).world
                { (exec pre w s).state with warning := (exec pre w s).state.warning + 1 }).flow⟩ := by
  have hne : (if exit_code = 0 then (1 : Int) else 0) ≠ exit_code := by
    split_ifs with h
    · omega
    · exact fun h0 => h h0.symm
  have hs : _CTESTER_TEST_RUN_AS_CHILD (statement (exec pre w s).world)
          (if exit_code = 0 then 1 else 0) = Status.exited (if exit_code = 0 then 1 else 0) := by
    rw [hreturns]
    simp only [_CTESTER_TEST_RUN_AS_CHILD]
    split_ifs <;> rfl
  refine ⟨hs, hne, by omega, ?_, ?_⟩
  · exact exec_reached_step_ret pre rest _ w s hreach _ _ _
      (by simp [Stmt.step, _CTESTER_TEST_EXIT, value_not_primary, value_ne_primary, hs, hne, assert_failed])
  · exact exec_reached_step_next pre rest _ w s hreach _ _ _
      (by simp [Stmt.step, _CTESTER_TEST_EXIT, value_not_primary, value_ne_primary, hs, hne, expect_failed])

/-- C12. The expected code is written into the comparison
`WEXITSTATUS(status) != exit_code` without parentheses. For
`EXPECT_EXIT(exit(1), 0 | 1)` the expected code is 1 and the child exits
normally with exactly the code 1, but the comparison is parsed as
`(1 != 0) | 1`, which is 1: `EXPECT_EXIT` adds a warning and `ASSERT_EXIT` sets
`failed` and returns, where the expectation is met. For the argument `1 & 0`
the expected code is 0, and a child that exits with the code 3 is accepted,
as the comparison is parsed as `(3 != 1) & 0`, which is 0. -/
theorem exit_expectation_unparenthesised :
    value [Tok.primary 0, Tok.op Op.bor, Tok.primary 1] = 1
    ∧ _CTESTER_TEST_RUN_AS_CHILD (Behaviour.exits 1)
        (value (Tok.bang :: [Tok.primary 0, Tok.op Op.bor, Tok.primary 1])) = Status.exited 1
    ∧ parse (Tok.primary 1 :: Tok.op Op.ne :: [Tok.primary 0, Tok.op Op.bor, Tok.primary 1])
        = some (Expr.bin Op.bor (Expr.bin Op.ne (Expr.primary 1) (Expr.primary 0))
            (Expr.primary 1))
    ∧ exec [Stmt.EXPECT_EXIT (fun _ : Unit => Behaviour.exits 1)
              [Tok.primary 0, Tok.op Op.bor, Tok.primary 1],
            Stmt.ASSERT_EXIT (fun _ => Behaviour.exits 1)
              [Tok.primary 0, Tok.op Op.bor, Tok.primary 1] 197,
            Stmt.other id] () ⟨0, 0⟩
        = ⟨(), ⟨197, 1⟩, [Outcome.warned, Outcome.aborted], Flow.ret⟩
    ∧ value [Tok.primary 1, Tok.op Op.band, Tok.primary 0] = 0
    ∧ _CTESTER_TEST_RUN_AS_CHILD (Behaviour.exits 3)
        (value (Tok.bang :: [Tok.primary 1, Tok.op Op.band, Tok.primary 0])) = Status.exited 3
    ∧ parse (Tok.primary 3 :: Tok.op Op.ne :: [Tok.primary 1, Tok.op Op.band, Tok.primary 0])
        = some (Expr.bin Op.band (Expr.bin Op.ne (Expr.primary 3) (Expr.primary 1))
            (Expr.primary 0))
    ∧ exec [Stmt.EXPECT_EXIT (fun _ : Unit => Behaviour.exits 3)
              [Tok.primary 1, Tok.op Op.band, Tok.primary 0],
            Stmt.ASSERT_EXIT (fun _ => Behaviour.exits 3)
              [Tok.primary 1, Tok.op Op.band, Tok.primary 0] 197] () ⟨0, 0⟩
        = ⟨(), ⟨0, 0⟩, [Outcome.held, Outcome.held], Flow.next⟩ :=
  ⟨rfl, rfl, rfl, rfl, rfl, rfl, rfl, rfl⟩

/-- C13. The fallback exit code is written as `!exit_code` without
parentheses. For `EXPECT_EXIT(does_nothing(), 2 * 0)` the expected code is 0,
the fallback is parsed as `(!2) * 0`, which is 0 and so equal to the expected
code: the statement returns, the child exits with the code 0, and both
`EXPECT_EXIT` and `ASSERT_EXIT` accept it, leaving the state unchanged. The
same holds for the argument `256 - 1`: the expected code is 255, the fallback
`(!256) - 1` is -1, and the exit status of the child is 255. -/
theorem returning_statement_accepted :
    value [Tok.primary 2, Tok.op Op.mul, Tok.primary 0] = 0
    ∧ parse (Tok.bang :: [Tok.primary 2, Tok.op Op.mul, Tok.primary 0])
        = some (Expr.bin Op.mul (Expr.not (Expr.primary 2)) (Expr.primary 0))
    ∧ value (Tok.bang :: [Tok.primary 2, Tok.op Op.mul, Tok.primary 0]) = 0
    ∧ _CTESTER_TEST_RUN_AS_CHILD Behaviour.returns
        (value (Tok.bang :: [Tok.primary 2, Tok.op Op.mul, Tok.primary 0])) = Status.exited 0
    ∧ exec [Stmt.EXPECT_EXIT (fun _ : Unit => Behaviour.returns)
              [Tok.primary 2, Tok.op Op.mul, Tok.primary 0],
            Stmt.ASSERT_EXIT (fun _ => Behaviour.returns)
              [Tok.primary 2, Tok.op Op.mul, Tok.primary 0] 198] () ⟨0, 0⟩
        = ⟨(), ⟨0, 0⟩, [Outcome.held, Outcome.held], Flow.next⟩
    ∧ value [Tok.primary 256, Tok.op Op.sub, Tok.primary 1] = 255
    ∧ value (Tok.bang :: [Tok.primary 256, Tok.op Op.sub, Tok.primary 1]) = -1
    ∧ _CTESTER_TEST_RUN_AS_CHILD Behaviour.returns
        (value (Tok.bang :: [Tok.primary 256, Tok.op Op.sub, Tok.primary 1]))
        = Status.exited 255
    ∧ exec [Stmt.EXPECT_EXIT (fun _ : Unit => Behaviour.returns)
              [Tok.primary 256, Tok.op Op.sub, Tok.primary 1],
            Stmt.ASSERT_EXIT (fun _ => Behaviour.returns)
              [Tok.primary 256, Tok.op Op.sub, Tok.primary 1] 198] () ⟨0, 0⟩
        = ⟨(), ⟨0, 0⟩, [Outcome.held, Outcome.held], Flow.next⟩ :=
  ⟨rfl, rfl, rfl, rfl, rfl, rfl, rfl, rfl, rfl⟩

/-! ## The truth checks -/

theorem to_int_eq_zero_iff (a : Int) : to_int a = 0 ↔ a % 2 ^ 32 = 0 := by
  unfold to_int
  omega

theorem to_int_of_int (a : Int) (hlo : -(2 ^ 31) ≤ a) (hhi : a < 2 ^ 31) : to_int a = a := by
  unfold to_int
  omega

theorem truth_steps {W : Type} (a : W → Int) (line : Nat) (w : W)
    (s : ctester_test_case_state_t) :
    ((((ASSERT_TRUE a line).step w s).2 = ⟨s, Outcome.held, Flow.next⟩) ↔ to_int (a w) ≠ 0)
    ∧ ((((EXPECT_TRUE a).step w s).2 = ⟨s, Outcome.held, Flow.next⟩) ↔ to_int (a w) ≠ 0)
    ∧ ((((ASSERT_FALSE a line).step w s).2 = ⟨s, Outcome.held, Flow.next⟩) ↔ to_int (a w) = 0)
    ∧ ((((EXPECT_FALSE a).step w s).2 = ⟨s, Outcome.held, Flow.next⟩)
        ↔ to_int (a w) = 0) := by
  refine ⟨?_, ?_, ?_, ?_⟩
  · by_cases h0 : to_int (a w) = 0
    · simp [ASSERT_TRUE, Stmt.step, _CTESTER_ASSERT1P, _ctester_is_true, assert_failed, h0]
    · simp [ASSERT_TRUE, Stmt.step, _CTESTER_ASSERT1P, _ctester_is_true, h0]
  · by_cases h0 : to_int (a w) = 0
    · simp [EXPECT_TRUE, Stmt.step, _CTESTER_EXPECT1P, _ctester_is_true, expect_failed, h0]
    · simp [EXPECT_TRUE, Stmt.step, _CTESTER_EXPECT1P, _ctester_is_true, h0]
  · by_cases h0 : to_int (a w) = 0
    · simp [ASSERT_FALSE, Stmt.step, _CTESTER_ASSERT1P, _ctester_is_false, h0]
    · simp [ASSERT_FALSE, Stmt.step, _CTESTER_ASSERT1P, _ctester_is_false, assert_failed, h0]
  · by_cases h0 : to_int (a w) = 0
    · simp [EXPECT_FALSE, Stmt.step, _CTESTER_EXPECT1P, _ctester_is_false, h0]
    · simp [EXPECT_FALSE, Stmt.step, _CTESTER_EXPECT1P, _ctester_is_false, expect_failed, h0]

theorem truth_checks {W : Type} (a : W → Int) (line : Nat) (w : W)
    (s : ctester_test_case_state_t) :
    ((((ASSERT_TRUE a line).step w s).2 = ⟨s, Outcome.held, Flow.next⟩) ↔ a w % 2 ^ 32 ≠ 0)
    ∧ ((((EXPECT_TRUE a).step w s).2 = ⟨s, Outcome.held, Flow.next⟩) ↔ a w % 2 ^ 32 ≠ 0)
    ∧ ((((ASSERT_FALSE a line).step w s).2 = ⟨s, Outcome.held, Flow.next⟩) ↔ a w % 2 ^ 32 = 0)
    ∧ ((((EXPECT_FALSE a).step w s).2 = ⟨s, Outcome.held, Flow.next⟩)
        ↔ a w % 2 ^ 32 = 0) := by
  have h := to_int_eq_zero_iff (a w)
  obtain ⟨h1, h2, h3, h4⟩ := truth_steps a line w s
  exact ⟨h1.trans (not_congr h), h2.trans (not_congr h), h3.trans h, h4.trans h⟩

theorem truth_checks_of_int {W : Type} (a : W → Int) (line : Nat) (w : W)
    (s : ctester_test_case_state_t) (hlo : -(2 ^ 31) ≤ a w) (hhi : a w < 2 ^ 31) :
    ((((ASSERT_TRUE a line).step w s).2 = ⟨s, Outcome.held, Flow.next⟩) ↔ a w ≠ 0)
    ∧ ((((EXPECT_TRUE a).step w s).2 = ⟨s, Outcome.held, Flow.next⟩) ↔ a w ≠ 0)
    ∧ ((((ASSERT_FALSE a line).step w s).2 = ⟨s, Outcome.held, Flow.next⟩) ↔ a w = 0)
    ∧ ((((EXPECT_FALSE a).step w s).2 = ⟨s, Outcome.held, Flow.next⟩) ↔ a w = 0) := by
  obtain ⟨h1, h2, h3, h4⟩ := truth_checks a line w s
  have hm : a w % 2 ^ 32 = 0 ↔ a w = 0 := by omega
  exact ⟨h1.trans (not_congr hm), h2.trans (not_congr hm), h3.trans hm, h4.trans hm⟩

/-- C14. The truth checks on the value 4294967296 (2^32) of a 64-bit integer
type, which is not zero: its conversion to the `int` parameter of the predicate
is 0, so `ASSERT_TRUE` fails and returns with `failed` set, `EXPECT_TRUE` adds
a warning, and `ASSERT_FALSE` and `EXPECT_FALSE` are satisfied, while
`ASSERT_NE(a, 0)` on the same value is satisfied. -/
theorem truth_checks_truncate :
    to_int 4294967296 = 0
    ∧ exec [ASSERT_TRUE (fun _ : Unit => 4294967296) 133] () ⟨0, 0⟩
        = ⟨(), ⟨133, 0⟩, [Outcome.aborted], Flow.ret⟩
    ∧ exec [EXPECT_TRUE (fun _ : Unit => 4294967296)] () ⟨0, 0⟩
        = ⟨(), ⟨0, 1⟩, [Outcome.warned], Flow.next⟩
    ∧ exec [ASSERT_FALSE (fun _ : Unit => 4294967296) 133] () ⟨0, 0⟩
        = ⟨(), ⟨0, 0⟩, [Outcome.held], Flow.next⟩
    ∧ exec [EXPECT_FALSE (fun _ : Unit => 4294967296)] () ⟨0, 0⟩
        = ⟨(), ⟨0, 0⟩, [Outcome.held], Flow.next⟩
    ∧ exec [ASSERT_NE (fun _ : Unit => 4294967296) (fun _ => 0) 133] () ⟨0, 0⟩
        = ⟨(), ⟨0, 0⟩, [Outcome.held], Flow.next⟩ := by
  refine ⟨by decide, ?_, ?_, ?_, ?_, ?_⟩ <;> rfl

/-! ## Test cases in a sorted registry -/

theorem strcmp_zero_trans (a b c : List Char) (hab : strcmp a b = 0) (hbc : strcmp b c = 0) :
    strcmp a c = 0 := by
  have h1 := strcmp_le_trans a b c (by omega) (by omega)
  have h2 := strcmp_le_trans c b a (by have := strcmp_swap c b; omega)
    (by have := strcmp_swap b a; omega)
  have h3 := strcmp_swap a c
  omega

theorem strcmp_ne_zero_congr (a b c : List Char) (hbc : strcmp b c = 0) :
    strcmp a b ≠ 0 ↔ strcmp a c ≠ 0 := by
  have hcb : strcmp c b = 0 := by have := strcmp_swap c b; omega
  constructor
  · intro h h0
    exact h (strcmp_zero_trans a c b h0 hcb)
  · intro h h0
    exact h (strcmp_zero_trans a b c h0 hbc)

theorem suite_order (s1 s2 : List Char) (h1 : '.' ∉ s1) (h2 : '.' ∉ s2)
    (n1 : IsCStr s1) (n2 : IsCStr s2) (hne : s1 ≠ s2) :
    ∃ v : Int, v ≠ 0 ∧ ∀ t1 t2 : List Char,
      strcmp (s1 ++ '.' :: t1) (s2 ++ '.' :: t2) = v := by
  induction s1 generalizing s2 with
  | nil =>
    cases s2 with
    | nil => exact absurd rfl hne
    | cons b s2 =>
      have hb : '.' ≠ b := fun e => h2 (e ▸ List.mem_cons_self b s2)
      refine ⟨('.'.toNat : Int) - (b.toNat : Int), ?_, ?_⟩
      · intro h0
        exact hb (char_toNat_inj _ _ (by omega))
      · intro t1 t2
        simp [strcmp, hb]
  | cons a s1 ih =>
    have ha : a ≠ '.' := fun e => h1 (e ▸ List.mem_cons_self a s1)
    cases s2 with
    | nil =>
      refine ⟨(a.toNat : Int) - ('.'.toNat : Int), ?_, ?_⟩
      · intro h0
        exact ha (char_toNat_inj _ _ (by omega))
      · intro t1 t2
        simp [strcmp, ha]
    | cons b s2 =>
      by_cases hab : a = b
      · subst hab
        have ha0 : a.toNat ≠ 0 := n1 a (List.mem_cons_self a s1)
        obtain ⟨v, hv, hall⟩ := ih s2
          (fun e => h1 (List.mem_cons_of_mem a e)) (fun e => h2 (List.mem_cons_of_mem a e))
          (fun c hc => n1 c (List.mem_cons_of_mem a hc))
          (fun c hc => n2 c (List.mem_cons_of_mem a hc))
          (fun e => hne (by rw [e]))
        refine ⟨v, hv, ?_⟩
        intro t1 t2
        simp [strcmp, ha0, hall t1 t2]
      · refine ⟨(a.toNat : Int) - (b.toNat : Int), ?_, ?_⟩
        · intro h0
          exact hab (char_toNat_inj _ _ (by omega))
        · intro t1 t2
          simp [strcmp, hab]

theorem isCStr_case (d : ctester_test_case_list_t)
    (hfull : d.full_test_name = d.test_case_name ++ '.' :: d.test_name)
    (hstr : IsCStr d.full_test_name) : IsCStr d.test_case_name := by
  intro c hc
  apply hstr c
  rw [hfull]
  exact List.mem_append_left _ hc

theorem suites_adjacent (registry : List ctester_test_case_list_t)
    (hfull : ∀ d ∈ registry, d.full_test_name = d.test_case_name ++ '.' :: d.test_name)
    (hsorted : registry.Pairwise (fun d e => strcmp d.full_test_name e.full_test_name ≤ 0))
    (hdot : ∀ d ∈ registry, '.' ∉ d.test_case_name)
    (hstr : ∀ d ∈ registry, IsCStr d.full_test_name)
    (i j k : Nat) (di dj dk : ctester_test_case_list_t) (hij : i < j) (hjk : j < k)
    (hi : registry[i]? = some di) (hj : registry[j]? = some dj) (hk : registry[k]? = some dk)
    (hsame : di.test_case_name = dk.test_case_name) :
    dj.test_case_name = di.test_case_name := by
  by_contra hne
  obtain ⟨hil, hie⟩ := List.getElem?_eq_some.1 hi
  obtain ⟨hjl, hje⟩ := List.getElem?_eq_some.1 hj
  obtain ⟨hkl, hke⟩ := List.getElem?_eq_some.1 hk
  have mi : di ∈ registry := List.getElem?_mem hi
  have mj : dj ∈ registry := List.getElem?_mem hj
  have mk : dk ∈ registry := List.getElem?_mem hk
  have hp := List.pairwise_iff_getElem.1 hsorted
  have hle1 := hp i j hil hjl hij
  have hle2 := hp j k hjl hkl hjk
  rw [hie, hje] at hle1
  rw [hje, hke] at hle2
  obtain ⟨v, hv, hall⟩ := suite_order di.test_case_name dj.test_case_name
    (hdot di mi) (hdot dj mj) (isCStr_case di (hfull di mi) (hstr di mi))
    (isCStr_case dj (hfull dj mj) (hstr dj mj)) (fun e => hne e.symm)
  rw [hfull di mi, hfull dj mj, hall] at hle1
  rw [hfull dj mj, hfull dk mk, ← hsame, strcmp_swap, hall] at hle2
  omega

theorem case_name_at_some (registry : List ctester_test_case_list_t) (k : Nat)
    (test : ctester_test_case_list_t) (hk : registry[k]? = some test) :
    case_name_at registry k = test.test_case_name := by
  simp [case_name_at, hk]

theorem run_step_start {W : Type}
    (call : Nat → W → ctester_test_case_state_t → W × ctester_test_case_state_t)
    (registry : List ctester_test_case_list_t) (number_of_tests : Nat → Int)
    (r : Run W) (k : Nat) (test : ctester_test_case_list_t)
    (hk : registry[k]? = some test) :
    (run_step call registry number_of_tests r k).test_case_start
      = (match r.test_case_start with
          | none => some k
          | some start =>
              if strcmp test.test_case_name (case_name_at registry start) ≠ 0 then some k
              else some start) := by
  unfold run_step
  simp only [hk]
  cases hr : r.test_case_start with
  | none => split_ifs <;> simp_all
  | some start => split_ifs <;> simp_all

theorem select_step_start (fnmatch : List Char → List Char → Int)
    (registry : List ctester_test_case_list_t) (pattern : List Char) (s : Selection)
    (k : Nat) (test : ctester_test_case_list_t) (hk : registry[k]? = some test) :
    (select_step fnmatch registry pattern s k).test_case_start
      = (if strcmp test.test_case_name (case_name_at registry s.test_case_start) ≠ 0 then k
         else s.test_case_start) := by
  unfold select_step
  simp only [hk]
  split_ifs <;> rfl

theorem run_start_upto {W : Type}
    (call : Nat → W → ctester_test_case_state_t → W × ctester_test_case_state_t)
    (registry : List ctester_test_case_list_t) (sel : Selection) (world : W) (k : Nat)
    (hk : k < registry.length) :
    ∃ j, ((List.range (k + 1)).foldl (run_step call registry sel.number_of_tests)
        (Run.init sel world)).test_case_start = some j
      ∧ j ≤ k
      ∧ strcmp (case_name_at registry k) (case_name_at registry j) = 0
      ∧ (j = k ↔ (k = 0
          ∨ strcmp (case_name_at registry k) (case_name_at registry (k - 1)) ≠ 0)) := by
  induction k with
  | zero =>
    have hget : registry[0]? = some registry[0] := List.getElem?_eq_getElem hk
    refine ⟨0, ?_, Nat.le_refl 0, strcmp_self _, by simp⟩
    rw [List.range_succ, List.foldl_append, List.foldl_cons, List.foldl_nil,
      run_step_start call registry sel.number_of_tests _ 0 registry[0] hget]
    simp [Run.init]
  | succ k ih =>
    obtain ⟨j, hj, hjk, hz, _⟩ := ih (Nat.lt_of_succ_lt hk)
    have hget : registry[k + 1]? = some registry[k + 1] := List.getElem?_eq_getElem hk
    have hname := case_name_at_some registry (k + 1) registry[k + 1] hget
    rw [List.range_succ, List.foldl_append, List.foldl_cons, List.foldl_nil,
      run_step_start call registry sel.number_of_tests _ (k + 1) registry[k + 1] hget, hj]
    simp only [← hname, Nat.add_sub_cancel]
    have hcongr := strcmp_ne_zero_congr (case_name_at registry (k + 1))
      (case_name_at registry k) (case_name_at registry j) hz
    by_cases hopen : strcmp (case_name_at registry (k + 1)) (case_name_at registry j) ≠ 0
    · refine ⟨k + 1, by rw [if_pos hopen], Nat.le_refl _, strcmp_self _, ?_⟩
      simp [hcongr.2 hopen]
    · refine ⟨j, by rw [if_neg hopen], by omega, not_not.1 hopen, ?_⟩
      constructor
      · intro e; omega
      · intro h
        rcases h with h | h
        · omega
        · exact absurd (hcongr.1 h) hopen

theorem select_start_upto (fnmatch : List Char → List Char → Int)
    (registry : List ctester_test_case_list_t) (pattern : List Char) (k : Nat)
    (hk : k < registry.length) :
    ((List.range (k + 1)).foldl (select_step fnmatch registry pattern)
        (Selection.init registry)).test_case_start ≤ k
      ∧ strcmp (case_name_at registry k)
          (case_name_at registry ((List.range (k + 1)).foldl
            (select_step fnmatch registry pattern) (Selection.init registry)).test_case_start)
          = 0
      ∧ (((List.range (k + 1)).foldl (select_step fnmatch registry pattern)
            (Selection.init registry)).test_case_start = k
          ↔ (k = 0
            ∨ strcmp (case_name_at registry k) (case_name_at registry (k - 1)) ≠ 0)) := by
  induction k with
  | zero =>
    have hget : registry[0]? = some registry[0] := List.getElem?_eq_getElem hk
    have hname := case_name_at_some registry 0 registry[0] hget
    rw [List.range_succ, List.foldl_append, List.foldl_cons, List.foldl_nil,
      select_step_start fnmatch registry pattern _ 0 registry[0] hget]
    simp [Selection.init, ← hname, strcmp_self]
  | succ k ih =>
    obtain ⟨hjk, hz, _⟩ := ih (Nat.lt_of_succ_lt hk)
    have hget : registry[k + 1]? = some registry[k + 1] := List.getElem?_eq_getElem hk
    have hname := case_name_at_some registry (k + 1) registry[k + 1] hget
    rw [List.range_succ, List.foldl_append, List.foldl_cons, List.foldl_nil,
      select_step_start fnmatch registry pattern _ (k + 1) registry[k + 1] hget]
    generalize ((List.range (k + 1)).foldl (select_step fnmatch registry pattern)
      (Selection.init registry)).test_case_start = j at hjk hz ⊢
    simp only [← hname, Nat.add_sub_cancel]
    have hcongr := strcmp_ne_zero_congr (case_name_at registry (k + 1))
      (case_name_at registry k) (case_name_at registry j) hz
    by_cases hopen : strcmp (case_name_at registry (k + 1)) (case_name_at registry j) ≠ 0
    · rw [if_pos hopen]
      refine ⟨Nat.le_refl _, strcmp_self _, ?_⟩
      simp [hcongr.2 hopen]
    · rw [if_neg hopen]
      refine ⟨by omega, not_not.1 hopen, ?_⟩
      constructor
      · intro e; omega
      · intro h
        rcases h with h | h
        · omega
        · exact absurd (hcongr.1 h) hopen

theorem first_of_suite (registry : List ctester_test_case_list_t)
    (hadj : ∀ (i j k : Nat) (di dj dk : ctester_test_case_list_t), i < j → j < k →
      registry[i]? = some di → registry[j]? = some dj → registry[k]? = some dk →
      di.test_case_name = dk.test_case_name → dj.test_case_name = di.test_case_name)
    (hcase : ∀ d ∈ registry, IsCStr d.test_case_name)
    (name : List Char) (hname : name ∈ registry.map (fun d => d.test_case_name)) :
    ∃! i, i < registry.length ∧ case_name_at registry i = name
      ∧ (i = 0 ∨ strcmp (case_name_at registry i) (case_name_at registry (i - 1)) ≠ 0) := by
  classical
  have hat : ∀ n (h : n < registry.length),
      case_name_at registry n = registry[n].test_case_name :=
    fun n h => case_name_at_some registry n registry[n] (List.getElem?_eq_getElem h)
  have hex : ∃ n, n < registry.length ∧ case_name_at registry n = name := by
    obtain ⟨d, hd, hdn⟩ := List.mem_map.1 hname
    obtain ⟨n, hn, hnd⟩ := List.getElem_of_mem hd
    exact ⟨n, hn, by rw [hat n hn, hnd, hdn]⟩
  obtain ⟨hlt, hfirst⟩ := Nat.find_spec hex
  have hmin : ∀ m, m < Nat.find hex → ¬ (m < registry.length ∧ case_name_at registry m = name) :=
    fun m hm => Nat.find_min hex hm
  generalize Nat.find hex = f at hlt hfirst hmin
  have hbound : ∀ y, y < registry.length → y ≠ 0 →
      (strcmp (case_name_at registry y) (case_name_at registry (y - 1)) ≠ 0
        ↔ case_name_at registry y ≠ case_name_at registry (y - 1)) := by
    intro y hy _
    have hy1 : y - 1 < registry.length := by omega
    rw [hat y hy, hat (y - 1) hy1]
    exact not_congr (strcmp_eq_zero_iff _ _ (hcase _ (List.getElem_mem hy))
      (hcase _ (List.getElem_mem hy1)))
  refine ⟨f, ⟨hlt, hfirst, ?_⟩, ?_⟩
  · by_cases h0 : f = 0
    · exact Or.inl h0
    · refine Or.inr ((hbound f hlt h0).2 ?_)
      rw [hfirst]
      intro e
      exact hmin (f - 1) (by omega) ⟨by omega, e.symm⟩
  · rintro y ⟨hy, hyn, hyb⟩
    by_contra hne
    have hfy : f < y := by
      rcases Nat.lt_or_ge y f with h | h
      · exact absurd ⟨hy, hyn⟩ (hmin y h)
      · omega
    have hy0 : y ≠ 0 := by omega
    have hy1 : y - 1 < registry.length := by omega
    rcases hyb with h | h
    · exact hy0 h
    · have hdiff := (hbound y hy hy0).1 h
      rw [hyn] at hdiff
      by_cases hf1 : f = y - 1
      · rw [← hf1, hfirst] at hdiff
        exact hdiff rfl
      · have := hadj f (y - 1) y registry[f] registry[y - 1] registry[y]
          (by omega) (by omega) (List.getElem?_eq_getElem hlt) (List.getElem?_eq_getElem hy1)
          (List.getElem?_eq_getElem hy) (by rw [← hat f hlt, ← hat y hy, hfirst, hyn])
        rw [← hat (y - 1) hy1, ← hat f hlt, hfirst] at this
        exact hdiff this.symm

theorem boundary_iff (registry : List ctester_test_case_list_t)
    (hcase : ∀ d ∈ registry, IsCStr d.test_case_name) (i : Nat) (hi : i < registry.length) :
    (i = 0 ∨ strcmp (case_name_at registry i) (case_name_at registry (i - 1)) ≠ 0)
      ↔ (i = 0 ∨ case_name_at registry i ≠ case_name_at registry (i - 1)) := by
  have hi1 : i - 1 < registry.length := by omega
  have e1 := case_name_at_some registry i registry[i] (List.getElem?_eq_getElem hi)
  have e2 := case_name_at_some registry (i - 1) registry[i - 1] (List.getElem?_eq_getElem hi1)
  rw [e1, e2]
  exact or_congr_right (not_congr (strcmp_eq_zero_iff _ _ (hcase _ (List.getElem_mem hi))
    (hcase _ (List.getElem_mem hi1))))

/-- C15. Sorting by full name groups the test cases. In a registry that is in
ascending order of the full names under `strcmp`, whose full names are
`test_case_name.test_name` and C strings, and whose test case names hold no
`.`: no descriptor of another test case lies between two descriptors of one
test case; so every test case name of the registry has exactly one position
that is the first of the list or follows a descriptor of another test case; and
this position is the one position of the test case at which the run loop, and
likewise the selection loop, leaves `test_case_start` at the descriptor it is
looking at. -/
theorem suites_start_once (registry : List ctester_test_case_list_t)
    (hfull : ∀ d ∈ registry, d.full_test_name = d.test_case_name ++ '.' :: d.test_name)
    (hsorted : registry.Chain' (fun d e => strcmp d.full_test_name e.full_test_name ≤ 0))
    (hdot : ∀ d ∈ registry, '.' ∉ d.test_case_name)
    (hstr : ∀ d ∈ registry, IsCStr d.full_test_name) :
    (∀ (i j k : Nat) (di dj dk : ctester_test_case_list_t), i < j → j < k →
      registry[i]? = some di → registry[j]? = some dj → registry[k]? = some dk →
      di.test_case_name = dk.test_case_name → dj.test_case_name = di.test_case_name)
    ∧ (∀ name ∈ registry.map (fun d => d.test_case_name),
        ∃! i, i < registry.length ∧ case_name_at registry i = name
          ∧ (i = 0 ∨ case_name_at registry i ≠ case_name_at registry (i - 1)))
    ∧ (∀ (W : Type)
        (call : Nat → W → ctester_test_case_state_t → W × ctester_test_case_state_t)
        (sel : Selection) (world : W),
        ∀ name ∈ registry.map (fun d => d.test_case_name),
          ∃! i, i < registry.length ∧ case_name_at registry i = name
            ∧ ((List.range (i + 1)).foldl (run_step call registry sel.number_of_tests)
                (Run.init sel world)).test_case_start = some i)
    ∧ (∀ (fnmatch : List Char → List Char → Int) (pattern : List Char),
        ∀ name ∈ registry.map (fun d => d.test_case_name),
          ∃! i, i < registry.length ∧ case_name_at registry i = name
            ∧ ((List.range (i + 1)).foldl (select_step fnmatch registry pattern)
                (Selection.init registry)).test_case_start = i) := by
  haveI : IsTrans ctester_test_case_list_t
      (fun d e => strcmp d.full_test_name e.full_test_name ≤ 0) :=
    ⟨fun a b c h1 h2 => strcmp_le_trans _ _ _ h1 h2⟩
  have hpw := List.chain'_iff_pairwise.1 hsorted
  have hadj := suites_adjacent registry hfull hpw hdot hstr
  have hcase : ∀ d ∈ registry, IsCStr d.test_case_name :=
    fun d hd => isCStr_case d (hfull d hd) (hstr d hd)
  refine ⟨hadj, ?_, ?_, ?_⟩
  · intro name hname
    refine (existsUnique_congr ?_).1 (first_of_suite registry hadj hcase name hname)
    intro i
    constructor
    · rintro ⟨h1, h2, h3⟩
      exact ⟨h1, h2, (boundary_iff registry hcase i h1).1 h3⟩
    · rintro ⟨h1, h2, h3⟩
      exact ⟨h1, h2, (boundary_iff registry hcase i h1).2 h3⟩
  · intro W call sel world name hname
    refine (existsUnique_congr ?_).1 (first_of_suite registry hadj hcase name hname)
    intro i
    constructor
    · rintro ⟨h1, h2, h3⟩
      obtain ⟨j, hj, _, _, hiff⟩ := run_start_upto call registry sel world i h1
      exact ⟨h1, h2, by rw [hj, hiff.2 h3]⟩
    · rintro ⟨h1, h2, h3⟩
      obtain ⟨j, hj, _, _, hiff⟩ := run_start_upto call registry sel world i h1
      rw [hj] at h3
      exact ⟨h1, h2, hiff.1 (Option.some.inj h3)⟩
  · intro fnmatch pattern name hname
    refine (existsUnique_congr ?_).1 (first_of_suite registry hadj hcase name hname)
    intro i
    constructor
    · rintro ⟨h1, h2, h3⟩
      exact ⟨h1, h2, (select_start_upto fnmatch registry pattern i h1).2.2.2 h3⟩
    · rintro ⟨h1, h2, h3⟩
      exact ⟨h1, h2, (select_start_upto fnmatch registry pattern i h1).2.2.1 h3⟩

theorem suites_start_once_witness :
    ∃! i, i < (ctester_test_root [TEST "A".toList "x".toList 0, TEST "A_B".toList "y".toList 1,
          TEST "A".toList "z".toList 2]).length
      ∧ case_name_at (ctester_test_root [TEST "A".toList "x".toList 0,
          TEST "A_B".toList "y".toList 1, TEST "A".toList "z".toList 2]) i = "A".toList
      ∧ (i = 0 ∨ case_name_at (ctester_test_root [TEST "A".toList "x".toList 0,
            TEST "A_B".toList "y".toList 1, TEST "A".toList "z".toList 2]) i
          ≠ case_name_at (ctester_test_root [TEST "A".toList "x".toList 0,
            TEST "A_B".toList "y".toList 1, TEST "A".toList "z".toList 2]) (i - 1)) :=
  (suites_start_once (ctester_test_root [TEST "A".toList "x".toList 0,
      TEST "A_B".toList "y".toList 1, TEST "A".toList "z".toList 2])
    (by decide) (root_sorted _).chain' (by decide) (by decide)).2.1 "A".toList (by decide)

end Ctester
